import Mathlib

/-!
# Verification of the resumable YouTube scraping pipeline

A shallow embedding of the core of `youtube_scraper.py` (class
`YouTubeChannelScraper`): the ledger data model (sqlite `videos` and
`scraping_progress` tables), the completion evaluator
(`get_video_completion_status`), the discovery stage (`discover_all_videos`),
the acquisition stage (`download_all_missing`, `download_media`,
`download_subtitles`, `_try_alternative_download_methods`,
`_quick_video_check`) and the content filters
(`_should_process_video`, `_parse_duration_to_minutes`).

External effects (the `yt-dlp` subprocess invocations) are modelled by
explicit environments listing, per invocation, the outcome the collaborator
produced (return code, stderr text, files written).  The sqlite tables are
modelled as in-memory lists; the filesystem as explicit lists of files with
sizes.  Python strings are modelled through their character lists so that
`strip` / `split` / `lower` / the `in` operator can be reasoned about
directly.
-/

namespace YTScraper

/-! ## Python string primitives -/

/-- Python `str.strip()` on a character list: drop whitespace from both ends. -/
def pyStripList (cs : List Char) : List Char :=
  ((cs.dropWhile Char.isWhitespace).reverse.dropWhile Char.isWhitespace).reverse

/-- Python `str.strip()`. -/
def pyStrip (s : String) : String := String.mk (pyStripList s.toList)

/-- Python `str.split(':')` : splits on every colon, keeping empty pieces
(`"".split(':') == ['']`). -/
def splitOnColon : List Char → List (List Char)
  | [] => [[]]
  | c :: cs =>
    if c = ':' then [] :: splitOnColon cs
    else
      match splitOnColon cs with
      | [] => [[c]]
      | p :: ps => (c :: p) :: ps

/-- Python `str.lower()` (ASCII case folding suffices for the indicator
phrases matched by the source). -/
def pyLower (s : String) : String := String.mk (s.toList.map Char.toLower)

/-- Does `pat` occur as a contiguous run at the head of `cs`? -/
def matchesAt : List Char → List Char → Bool
  | [], _ => true
  | _ :: _, [] => false
  | p :: ps, c :: cs => p == c && matchesAt ps cs

/-- Python `needle in hay` for strings: substring containment. -/
def strContains (hay needle : String) : Bool :=
  let rec go : List Char → Bool
    | [] => matchesAt needle.toList []
    | c :: cs => matchesAt needle.toList (c :: cs) || go cs
  go hay.toList

/-- Value of a digit list, most significant first. -/
def natOfDigits (cs : List Char) : Nat :=
  cs.foldl (fun n c => 10 * n + (c.toNat - 48)) 0

/-- Helper of `pyInt?`: a nonempty all-digit list parses to its value. -/
def digitsToNat? (cs : List Char) : Option Nat :=
  if cs ≠ [] ∧ cs.all Char.isDigit then some (natOfDigits cs) else none

/-- Python `int(s)`: surrounding whitespace tolerated, optional sign, then a
nonempty digit run; anything else raises `ValueError` (modelled as `none`). -/
def pyInt? (s : String) : Option Int :=
  match pyStripList s.toList with
  | '-' :: cs => (digitsToNat? cs).map (fun n => -(n : Int))
  | '+' :: cs => (digitsToNat? cs).map (fun n => (n : Int))
  | cs => (digitsToNat? cs).map (fun n => (n : Int))

/-! ## Duration parsing and content filters (`_parse_duration_to_minutes`,
`_should_process_video`) -/

/-- `_parse_duration_to_minutes`: `H:M:S` gives `H*60+M`, `M:S` gives `M`, a
bare value over 100 is seconds (floor-divided by 60), otherwise minutes;
the empty string and unparsable text give `none`. -/
def parse_duration_to_minutes (length_text : String) : Option Int :=
  if length_text = "" then none
  else
    let parts := splitOnColon (pyStripList length_text.toList)
    match parts with
    | [p0, p1, p2] => do
      let hours ← pyInt? (String.mk p0)
      let minutes ← pyInt? (String.mk p1)
      let _seconds ← pyInt? (String.mk p2)
      pure (hours * 60 + minutes)
    | [p0, p1] => do
      let minutes ← pyInt? (String.mk p0)
      let _seconds ← pyInt? (String.mk p1)
      pure minutes
    | [p0] => do
      let value ← pyInt? (String.mk p0)
      pure (if value > 100 then Int.fdiv value 60 else value)
    | _ => none

/-- `_should_process_video`.  The `re.search` title matcher is an external
library; it is passed as an oracle `titlePattern` (`none` when no
`--title-pattern` was given).  Returns the pair `(should_process, reason)`. -/
def should_process_video (titlePattern : Option (String → Bool))
    (min_duration_minutes max_duration_minutes : Option Int)
    (duration_filter_strict : Bool)
    (title length_text : String) : Bool × String :=
  match titlePattern with
  | some p =>
    if ¬ p title then (false, "Title doesn't match pattern")
    else should_process_duration
  | none => should_process_duration
where
  should_process_duration : Bool × String :=
    if min_duration_minutes.isSome ∨ max_duration_minutes.isSome then
      match parse_duration_to_minutes length_text with
      | none =>
        if duration_filter_strict then
          (false, "Duration info missing and strict filtering enabled")
        else (true, "Passed all filters")
      | some d =>
        match min_duration_minutes with
        | some lo =>
          if d < lo then (false, "Duration below minimum")
          else
            match max_duration_minutes with
            | some hi => if d > hi then (false, "Duration above maximum")
                         else (true, "Passed all filters")
            | none => (true, "Passed all filters")
        | none =>
          match max_duration_minutes with
          | some hi => if d > hi then (false, "Duration above maximum")
                       else (true, "Passed all filters")
          | none => (true, "Passed all filters")
    else (true, "Passed all filters")

/-! ## Ledger data model (the sqlite `videos` table)

One `VideoRecord` per row.  sqlite `NULL` is `none`; the `subtitles_completed`
JSON object (language → status) is an association list (a `NULL` or
unparsable column reads back as the empty dict, exactly as the
`json.loads` / `except` dance in the source produces `{}`).  File sizes are
kept in bytes: the source stores megabytes as a float, but every comparison
it performs (`> 1MB`, `> 1.0`) is equivalent to the byte comparison
`size > 1024*1024` for any realistic size, so no floating point is needed.
`scraped_at` is the insertion timestamp (`TIMESTAMP DEFAULT
CURRENT_TIMESTAMP`), modelled as a `Nat` tick. -/

structure VideoRecord where
  video_id : String
  title : String := ""
  length_text : String := ""
  scraped_at : Nat := 0
  metadata_completed : Bool := false
  subtitles_completed : List (String × String) := []
  media_completed : Bool := false
  processing_status : Option String := none
  last_processing_step : Option String := none
  subtitle_path : Option String := none
  auto_subtitle_path : Option String := none
  subtitle_type : Option String := none
  audio_path : Option String := none
  video_path : Option String := none
  download_status : Option String := none
  subtitle_languages : Option (List String) := none
  file_size_bytes : Nat := 0
  deriving Repr, DecidableEq

/-- The `videos` table. -/
abbrev DB := List VideoRecord

/-- `SELECT ... FROM videos WHERE video_id = ?` (primary key: first match). -/
def getVideo (db : DB) (id : String) : Option VideoRecord :=
  db.find? (fun r => r.video_id == id)

/-- `UPDATE videos SET ... WHERE video_id = ?`. -/
def updateVideo (db : DB) (id : String) (f : VideoRecord → VideoRecord) : DB :=
  db.map (fun r => if r.video_id == id then f r else r)

/-- `INSERT OR REPLACE INTO videos ...` keyed by `video_id`. -/
def insertOrReplace (db : DB) (r : VideoRecord) : DB :=
  (db.filter (fun q => q.video_id ≠ r.video_id)) ++ [r]

/-- `is_video_exists`. -/
def is_video_exists (db : DB) (id : String) : Bool :=
  (getVideo db id).isSome

/-- Python `dict.get` on the language → status object. -/
def dictGet (d : List (String × String)) (k : String) : Option String :=
  (d.find? (fun p => p.1 == k)).map (fun p => p.2)

/-- Python `d[k] = v` on an association list. -/
def dictInsert (d : List (String × String)) (k v : String) :
    List (String × String) :=
  if d.any (fun p => p.1 == k) then
    d.map (fun p => if p.1 == k then (k, v) else p)
  else d ++ [(k, v)]

/-- Python `current.update(new)`: merge the pairs of `upd` into `d`. -/
def dictUpdate (d upd : List (String × String)) : List (String × String) :=
  upd.foldl (fun acc p => dictInsert acc p.1 p.2) d

/-! ## Filesystem model

Subtitle artifacts live at `subtitles/<lang>/<videoId>_manual.srt` and
`subtitles/<lang>/<videoId>_auto.srt`; a subtitle file is identified by the
key `(language, video id, isManual)` together with its byte size.  Media
artifacts are the files matching the glob `<videoId>.*` in the media
directory; each carries the stem (`vid`, the video id the fetcher used in
its `-o "<id>.%(ext)s"` template), the remainder of its name (`ext`) and its
`Path.suffix` (the last dotted component, e.g. `".mp3"` or `".part"`). -/

structure MediaFile where
  vid : String
  ext : String
  suffix : String
  size : Nat
  deriving Repr, DecidableEq

structure FS where
  subs : List ((String × String × Bool) × Nat)
  media : List MediaFile
  deriving Repr, DecidableEq

/-- Size of the subtitle file for `(lang, vid, manual?)`, when it exists. -/
def subSize? (fs : FS) (lang vid : String) (manual : Bool) : Option Nat :=
  (fs.subs.find? (fun p => p.1 == (lang, vid, manual))).map (fun p => p.2)

/-- `file.exists()`. -/
def subFileExists (fs : FS) (lang vid : String) (manual : Bool) : Bool :=
  (subSize? fs lang vid manual).isSome

/-- `file.exists() and file.stat().st_size > 0`. -/
def subFileNonEmpty (fs : FS) (lang vid : String) (manual : Bool) : Bool :=
  match subSize? fs lang vid manual with
  | some n => n > 0
  | none => false

/-- Create the subtitle file (the caller only does so when it is absent). -/
def subCreate (fs : FS) (lang vid : String) (manual : Bool) (size : Nat) : FS :=
  { fs with subs := ((lang, vid, manual), size) :: fs.subs }

/-- `file.unlink()` for a subtitle file. -/
def subUnlink (fs : FS) (lang vid : String) (manual : Bool) : FS :=
  { fs with subs := fs.subs.filter (fun p => p.1 ≠ (lang, vid, manual)) }

/-- `self.media_dir.glob(f"{video_id}.*")`. -/
def globMedia (fs : FS) (vid : String) : List MediaFile :=
  fs.media.filter (fun f => f.vid == vid)

/-- The known incomplete-download suffixes `['.part', '.ytdl', '.temp']`. -/
def isIncompleteSuffix (s : String) : Bool :=
  s == ".part" || s == ".ytdl" || s == ".temp"

/-- A file counted as a genuine finished artifact: not an incomplete-download
suffix and strictly larger than 1 MB (`1024 * 1024` bytes). -/
def isCompleteFile (f : MediaFile) : Bool :=
  ¬ isIncompleteSuffix f.suffix ∧ f.size > 1024 * 1024

/-- Python `max(files, key=lambda f: f.stat().st_size)`: first maximum. -/
def largestFile : List MediaFile → Option MediaFile
  | [] => none
  | f :: fs => some (fs.foldl (fun best g => if g.size > best.size then g else best) f)

/-- The path string of a media file. -/
def mediaPath (f : MediaFile) : String := f.vid ++ "." ++ f.ext

/-- `file.unlink()` for a media file (removes the first matching entry). -/
def mediaUnlink (fs : FS) (f : MediaFile) : FS :=
  { fs with media := fs.media.erase f }

/-- Unlinking every incomplete file of `vid` (the cleanup loop in
`download_media`). -/
def purgeIncomplete (fs : FS) (vid : String) : FS :=
  { fs with media := fs.media.filter (fun f => f.vid ≠ vid ∨ isCompleteFile f) }

/-! ## Granular completion updates -/

/-- `update_video_completion_status`: read-modify-write of the completion
sub-structure of one row.  A `none` argument leaves the field alone; a
subtitle argument is merged (`current_subtitles.update(...)`) into the
stored language → status object.  If the row does not exist the `UPDATE`
affects nothing.  (The free-form `completion_details` JSON blob is
diagnostic only and not modelled.) -/
def applyCompletionUpdate (metadata? : Option Bool)
    (subtitles? : Option (List (String × String)))
    (media? : Option Bool) (processing_status? : Option String)
    (last_step? : Option String) (r : VideoRecord) : VideoRecord :=
  let r := match metadata? with
    | some b => { r with metadata_completed := b }
    | none => r
  let r := match subtitles? with
    | some d => { r with subtitles_completed := dictUpdate r.subtitles_completed d }
    | none => r
  let r := match media? with
    | some b => { r with media_completed := b }
    | none => r
  let r := match processing_status? with
    | some s => { r with processing_status := some s }
    | none => r
  match last_step? with
  | some s => { r with last_processing_step := some s }
  | none => r

def update_video_completion_status (db : DB) (video_id : String)
    (metadata? : Option Bool)
    (subtitles? : Option (List (String × String)))
    (media? : Option Bool)
    (processing_status? : Option String)
    (last_step? : Option String) : DB :=
  updateVideo db video_id
    (applyCompletionUpdate metadata? subtitles? media? processing_status? last_step?)

/-- The step names accepted by `mark_step_completed`: `'metadata'`,
`'subtitles_<lang>'` (the language is what follows the underscore) and
`'media'`. -/
inductive Step where
  | metadata
  | subtitles (lang : String)
  | media
  deriving Repr, DecidableEq

/-- `mark_step_completed`. -/
def mark_step_completed (db : DB) (video_id : String) (step : Step)
    (success : Bool) : DB :=
  match step with
  | .metadata =>
    update_video_completion_status db video_id (some success) none none
      (some (if success then "partial" else "failed")) (some "metadata")
  | .subtitles lang =>
    update_video_completion_status db video_id none
      (some [(lang, if success then "completed" else "failed")]) none none
      (some ("subtitles_" ++ lang))
  | .media =>
    update_video_completion_status db video_id none none (some success) none
      (some "media")

/-! ## The completion evaluator (`get_video_completion_status`) -/

structure CompletionStatus where
  exists_in_db : Bool
  needs_metadata : Bool
  needs_subtitles : Bool
  missing_subtitle_languages : List String
  needs_media : Bool
  is_fully_completed : Bool
  processing_status : String
  last_step : Option String
  deriving Repr, DecidableEq

/-- One iteration of the evaluator's per-language loop, threading
`needs_subtitles`, `missing_subtitle_languages` and the ledger (which only
changes through the `completed`-but-file-missing downgrade).  `r` is the row
fetched once at the start of the call. -/
def subtitleScanStep (fs : FS) (video_id : String) (r : VideoRecord)
    (acc : Bool × List String × DB) (lang : String) : Bool × List String × DB :=
  if dictGet r.subtitles_completed lang = some "not_available" then acc
  else if subFileNonEmpty fs lang video_id true
      || subFileNonEmpty fs lang video_id false then acc
  else
    (true, acc.2.1 ++ [lang],
      if dictGet r.subtitles_completed lang = some "completed" then
        update_video_completion_status acc.2.2 video_id none
          (some [(lang, "missing")]) none (some "partial") none
      else acc.2.2)

/-- The evaluator's per-language loop over the requested languages. -/
def subtitleScan (fs : FS) (video_id : String) (r : VideoRecord)
    (langs : List String) (acc : Bool × List String × DB) :
    Bool × List String × DB :=
  langs.foldl (subtitleScanStep fs video_id r) acc

/-- `get_video_completion_status`: decides, against the ledger *and the
filesystem*, what remains to be done for one video, returning the status
report together with the ledger after the self-healing downgrades. -/
def get_video_completion_status (db : DB) (fs : FS) (video_id : String)
    (download_subtitles : Bool) (subtitle_languages : List String)
    (download_media : Bool) : CompletionStatus × DB :=
  match getVideo db video_id with
  | none =>
    ({ exists_in_db := false
       needs_metadata := true
       needs_subtitles := download_subtitles
       missing_subtitle_languages :=
         if download_subtitles then subtitle_languages else []
       needs_media := download_media
       is_fully_completed := false
       processing_status := "not_started"
       last_step := none }, db)
  | some r =>
    let needs_metadata := ! r.metadata_completed
    let scanned :=
      if download_subtitles then
        subtitleScan fs video_id r subtitle_languages (false, [], db)
      else (false, [], db)
    let needs_subtitles := scanned.1
    let missing_subtitle_languages := scanned.2.1
    let db := scanned.2.2
    let mediaChecked :=
      if download_media then
        let has_substantial_file := (globMedia fs video_id).any isCompleteFile
        if ¬ has_substantial_file then
          let db :=
            if r.media_completed then
              update_video_completion_status db video_id none none
                (some false) (some "partial") none
            else db
          (true, db)
        else (false, db)
      else (false, db)
    let needs_media := mediaChecked.1
    let db := mediaChecked.2
    let is_fully_completed :=
      !needs_metadata && !needs_subtitles && !needs_media
    ({ exists_in_db := true
       needs_metadata := needs_metadata
       needs_subtitles := needs_subtitles
       missing_subtitle_languages := missing_subtitle_languages
       needs_media := needs_media
       is_fully_completed := is_fully_completed
       processing_status :=
         match r.processing_status with
         | some s => if s = "" then "unknown" else s
         | none => "unknown"
       last_step := r.last_processing_step }, db)

/-! ## Subprocess outcome environments

Each `yt-dlp` invocation is an external effect.  An environment lists, in
invocation order, what each call did: `ran rc stderr created` (the process
finished with return code `rc`, diagnostics `stderr`, and wrote the given
files), `timeout` (`subprocess.TimeoutExpired`) or `exc` (any other raised
exception).  An exhausted environment behaves as a timeout. -/

inductive SubEv where
  | ran (rc : Int) (stderr : String) (created : Option Nat)
  | timeout
  | exc
  deriving Repr, DecidableEq

def nextSubEv : List SubEv → SubEv × List SubEv
  | [] => (.timeout, [])
  | e :: es => (e, es)

inductive MediaEv where
  | ran (rc : Int) (stderr : String) (created : List MediaFile)
  | timeout
  | exc
  deriving Repr, DecidableEq

def nextMediaEv : List MediaEv → MediaEv × List MediaEv
  | [] => (.timeout, [])
  | e :: es => (e, es)

/-! ## Blocking-signal and deletion-signal classification -/

/-- The indicator phrases of `_is_auth_or_bot_error`. -/
def auth_indicators : List String :=
  ["sign in to confirm", "not a bot", "cookies", "authentication", "captcha",
   "bot detection", "verify you are human", "too many requests", "rate limit",
   "blocked", "forbidden"]

/-- `_is_auth_or_bot_error`. -/
def is_auth_or_bot_error (error_msg : String) : Bool :=
  auth_indicators.any (fun ind => strContains (pyLower error_msg) ind)

/-- The definitive-deletion phrases of `_quick_video_check`. -/
def quick_deletion_indicators : List String :=
  ["unavailable", "removed", "deleted", "private", "not found"]

/-- `_quick_video_check`: `true` means "video exists (or assume so)",
`false` means definitively deleted/unavailable. -/
def quick_video_check (ev : MediaEv) : Bool :=
  match ev with
  | .ran rc stderr _ =>
    if rc = 0 then true
    else if quick_deletion_indicators.any
        (fun ind => strContains (pyLower stderr) ind) then false
    else true
  | .timeout => true
  | .exc => true

/-- The no-retry phrases checked by `download_media` on a failed attempt. -/
def unavailable_indicators : List String :=
  ["unavailable", "private", "deleted", "removed"]

/-! ## Subtitle acquisition (`download_subtitles`) -/

/-- The in-flight state of `download_subtitles` while one language is being
attempted: the filesystem, the remaining subprocess outcomes for this
language, the cross-language `manual_path` / `auto_path` / `subtitle_type`
accumulators, and the per-language `lang_manual_success` /
`lang_auto_success` flags. -/
structure SubLangState where
  fs : FS
  env : List SubEv
  manual_path : Option String
  auto_path : Option String
  subtitle_type : String
  m : Bool
  a : Bool
  deriving Repr, DecidableEq

/-- The path string of a subtitle file. -/
def subPath (lang vid : String) (manual : Bool) : String :=
  "subtitles/" ++ lang ++ "/" ++ vid ++ (if manual then "_manual.srt" else "_auto.srt")

/-- One manual (`manual = true`) or auto caption invocation inside an
attempt of `download_subtitles`.  Skipped entirely when the target file
already exists.  The second component is `true` when the invocation raised
(timeout or other exception), which aborts the rest of the attempt. -/
def subPhase (vid lang : String) (manual : Bool) (st : SubLangState) :
    SubLangState × Bool :=
  if subFileExists st.fs lang vid manual then (st, false)
  else
    let (e, env) := nextSubEv st.env
    let st := { st with env := env }
    match e with
    | .timeout => (st, true)
    | .exc => (st, true)
    | .ran rc _ created =>
      let fs := match created with
        | some sz => subCreate st.fs lang vid manual sz
        | none => st.fs
      let st := { st with fs := fs }
      if rc = 0 ∧ subFileNonEmpty fs lang vid manual then
        if manual then
          let st := if st.manual_path.isNone then
              { st with manual_path := some (subPath lang vid true)
                        subtitle_type := "manual" }
            else st
          ({ st with m := true }, false)
        else
          let st := if st.auto_path.isNone then
              { st with auto_path := some (subPath lang vid false)
                        subtitle_type :=
                          if st.subtitle_type = "manual" then "both"
                          else if st.subtitle_type = "none" then "auto"
                          else st.subtitle_type }
            else st
          ({ st with a := true }, false)
      else if subFileExists fs lang vid manual ∧ ¬ subFileNonEmpty fs lang vid manual then
        ({ st with fs := subUnlink fs lang vid manual }, false)
      else
        (st, false)

/-- One retry attempt for a language: the manual invocation, then — unless
the manual one raised — the auto invocation. -/
def subAttempt (vid lang : String) (st : SubLangState) : SubLangState × Bool :=
  let (st, aborted) := subPhase vid lang true st
  if aborted then (st, true)
  else subPhase vid lang false st

/-- The retry loop (`for attempt in range(max_retries)`): breaks as soon as
an attempt obtained either caption kind without raising. -/
def subAttempts (vid lang : String) : Nat → SubLangState → SubLangState
  | 0, st => st
  | n + 1, st =>
    let (st', aborted) := subAttempt vid lang st
    if ¬ aborted ∧ (st'.m || st'.a) then st'
    else subAttempts vid lang n st'

/-- One iteration of the language loop of `download_subtitles`: run the
retry attempts for `lang` and record `'completed'` or `'not_available'`
for it. -/
def subLangStep (envOf : String → List SubEv) (video_id : String)
    (acc : Option String × Option String × String ×
      List (String × String) × FS) (lang : String) :
    Option String × Option String × String × List (String × String) × FS :=
  let st := subAttempts video_id lang 3
    { fs := acc.2.2.2.2, env := envOf lang, manual_path := acc.1
      auto_path := acc.2.1, subtitle_type := acc.2.2.1
      m := false, a := false }
  (st.manual_path, st.auto_path, st.subtitle_type,
    dictInsert acc.2.2.2.1 lang
      (if st.m || st.a then "completed" else "not_available"), st.fs)

/-- `download_subtitles`: returns
`((manual_path, auto_path, subtitle_type, language_results), fs)` where
`language_results` maps each requested language to `'completed'` or
`'not_available'`.  `envOf` supplies the subprocess outcomes for each
language; `max_retries = 3` as in the source default. -/
def download_subtitles (fs : FS) (envOf : String → List SubEv)
    (video_id : String) (languages : List String) :
    (Option String × Option String × String × List (String × String)) × FS :=
  let fin := languages.foldl (subLangStep envOf video_id)
    (none, none, "none", [], fs)
  ((fin.1, fin.2.1, fin.2.2.1, fin.2.2.2.1), fin.2.2.2.2)

/-! ## Media acquisition (`download_media` and the escalation ladder) -/

/-- `_try_alternative_download_methods`: the three-rung ladder (Firefox
cookies, Chrome cookies + lower quality, no cookies + pacing delays).  Each
rung is one invocation; a rung succeeds when the process exits 0 and the
largest file now matching the glob exceeds 1 MB.  When every rung fails the
result is `(None, "auth_failed", 0)`. -/
def altMethodsLoop (vid : String) : Nat → FS → List MediaEv →
    (Option String × String × Nat) × FS
  | 0, fs, _ => ((none, "auth_failed", 0), fs)
  | n + 1, fs, env =>
    let (e, env) := nextMediaEv env
    match e with
    | .ran rc _ created =>
      let fs := { fs with media := fs.media ++ created }
      if rc = 0 then
        match largestFile (globMedia fs vid) with
        | some f =>
          if f.size > 1024 * 1024 then
            ((some (mediaPath f), "completed", f.size), fs)
          else altMethodsLoop vid n fs env
        | none => altMethodsLoop vid n fs env
      else altMethodsLoop vid n fs env
    | .timeout => altMethodsLoop vid n fs env
    | .exc => altMethodsLoop vid n fs env

def try_alternative_download_methods (fs : FS) (env : List MediaEv)
    (vid : String) : (Option String × String × Nat) × FS :=
  altMethodsLoop vid 3 fs env

/-- The retry loop of `download_media`.  `path`, `status` and `size` are the
`file_path` / `download_status` / `file_size_mb` locals (note that the
source's `for file_path in existing_files:` loop reuses the `file_path`
variable, leaving it at the *last* globbed file — modelled faithfully).
When the escalation ladder is exhausted the source raises
`Exception("Authentication/bot detection error - manual intervention
required")` — but that `raise` sits inside the attempt's own `try:` block,
whose catch-all `except Exception` handler catches it, sets
`download_status = 'error'` and lets the retry loop continue; the exception
therefore never escapes `download_media`, which always returns normally
(every other code path of the attempt is likewise inside that handler's
`try:`). -/
def download_media_loop (vid : String) : Nat → FS → List MediaEv →
    List MediaEv → Option String → String → Nat →
    (Option String × String × Nat) × FS
  | 0, fs, _, _, path, status, size => ((path, status, size), fs)
  | n + 1, fs, env, altEnv, path, status, size =>
    let existing := globMedia fs vid
    let path := match existing.getLast? with
      | some f => some (mediaPath f)
      | none => path
    let complete := existing.filter isCompleteFile
    let fs := purgeIncomplete fs vid
    match largestFile complete with
    | some f => ((some (mediaPath f), "completed", f.size), fs)
    | none =>
      let (e, env) := nextMediaEv env
      match e with
      | .timeout => download_media_loop vid n fs env altEnv path "timeout" size
      | .exc => download_media_loop vid n fs env altEnv path "error" size
      | .ran rc stderr created =>
        let fs := { fs with media := fs.media ++ created }
        if rc = 0 then
          match largestFile (globMedia fs vid) with
          | some f =>
            let size := f.size
            if f.size > 1024 * 1024 then
              ((some (mediaPath f), "completed", size), fs)
            else
              download_media_loop vid n (mediaUnlink fs f) env altEnv path
                "corrupted" size
          | none =>
            download_media_loop vid n fs env altEnv path "missing_file" size
        else
          let error_msg := if stderr = "" then "Unknown error" else pyStrip stderr
          if is_auth_or_bot_error error_msg then
            let alt := try_alternative_download_methods fs altEnv vid
            if alt.1.2.1 = "completed" then (alt.1, alt.2)
            else
              -- the ladder-exhaustion raise is caught right here by the
              -- attempt's `except Exception`: status 'error', loop continues
              download_media_loop vid n alt.2 env altEnv path "error" size
          else if unavailable_indicators.any
              (fun ind => strContains (pyLower error_msg) ind) then
            ((path, "unavailable", size), fs)
          else
            download_media_loop vid n fs env altEnv path status size

/-- `download_media` (`max_retries = 3`).  With no download directory the
call is skipped; otherwise `file_path = None`, `download_status = "failed"`,
`file_size_mb = 0` enter the retry loop.  Always returns normally: every
exception of an attempt — the ladder-exhaustion raise included — is caught
by the attempt's own handlers. -/
def download_media (download_dir_set : Bool) (fs : FS)
    (env altEnv : List MediaEv) (vid : String) :
    (Option String × String × Nat) × FS :=
  if ¬ download_dir_set then ((none, "skipped", 0), fs)
  else download_media_loop vid 3 fs env altEnv none "failed" 0

/-! ## Acquisition stage (`download_all_missing`) -/

/-- The options of one acquisition run. -/
structure Config where
  download_subtitles : Bool := true
  subtitle_languages : List String := ["fa", "en"]
  download_media : Bool := false
  audio_only : Bool := true

/-- The external outcomes available while one ledger item is processed:
the `_quick_video_check` invocation, whether the subtitle step raised
outside `download_subtitles`' own handlers (any such exception is caught and
merely fails the step), whether the media block raised outside
`download_media` (which itself always returns normally — e.g. a database
error; the block's own `except` re-raises such an exception when its
message looks authentication-related, else fails the step), and the
subprocess outcomes for the subtitle and media fetches together with the
escalation-ladder rungs. -/
structure ItemEnv where
  quick : MediaEv := .ran 0 "" []
  subRaises : Bool := false
  mediaRaises : Option String := none
  subEnv : String → List SubEv := fun _ => []
  mediaEnv : List MediaEv := []
  altEnv : List MediaEv := []

/-- The running state of `download_all_missing`: the ledger, the
filesystem and the two counters. -/
structure RunState where
  db : DB
  fs : FS
  success_count : Nat := 0
  failed_count : Nat := 0
  deriving Repr, DecidableEq

/-- The `WHERE processing_status != 'completed'` row predicate.  Under
SQL three-valued logic a `NULL` status makes the comparison `NULL`, so the
row is *not* selected. -/
def notCompletedRow (r : VideoRecord) : Bool :=
  match r.processing_status with
  | some s => s ≠ "completed"
  | none => false

/-- The `ORDER BY scraped_at` ordering. -/
def byScrapedAt (a b : VideoRecord) : Prop := a.scraped_at ≤ b.scraped_at

instance : DecidableRel byScrapedAt := fun a b => Nat.decLe a.scraped_at b.scraped_at

instance : IsTotal VideoRecord byScrapedAt := ⟨fun a b => Nat.le_total a.scraped_at b.scraped_at⟩

instance : IsTrans VideoRecord byScrapedAt := ⟨fun _ _ _ => Nat.le_trans⟩

/-- `SELECT video_id, title FROM videos WHERE processing_status !=
'completed' ORDER BY scraped_at`. -/
def videos_to_process (db : DB) : List VideoRecord :=
  List.insertionSort byScrapedAt (db.filter notCompletedRow)

/-- Marking loop after a subtitle fetch: each downloaded language is marked
with its actual result (`language_results.get(lang, 'failed')`). -/
def markLanguageResults (video_id : String)
    (language_results : List (String × String)) (langs : List String)
    (db : DB) : DB :=
  langs.foldl (fun db lang =>
    if (dictGet language_results lang).getD "failed" = "completed" then
      mark_step_completed db video_id (.subtitles lang) true
    else
      mark_step_completed db video_id (.subtitles lang) false) db

/-- The `UPDATE videos SET subtitle_path, auto_subtitle_path,
subtitle_type, subtitle_languages, subtitle_downloaded_at WHERE video_id`
statement after a subtitle fetch. -/
def subtitlePathColumns (cfg : Config) (manual_path auto_path : Option String)
    (subtitle_type : String) (r : VideoRecord) : VideoRecord :=
  { r with subtitle_path := manual_path
           auto_subtitle_path := auto_path
           subtitle_type := some subtitle_type
           subtitle_languages := some cfg.subtitle_languages }

/-- The subtitle step of one `download_all_missing` iteration (its inner
`try:` block): fetch the missing languages, persist the path columns, and
mark each language's outcome.  Returns the new state and the `success`
flag. -/
def subtitleStep (cfg : Config) (env : ItemEnv) (video_id : String)
    (languages_to_download : List String) (st : RunState) (success : Bool) :
    RunState × Bool :=
  if env.subRaises then (st, false)
  else
    let fetched := download_subtitles st.fs env.subEnv video_id
      languages_to_download
    let db := updateVideo st.db video_id
      (subtitlePathColumns cfg fetched.1.1 fetched.1.2.1 fetched.1.2.2.1)
    let db := markLanguageResults video_id fetched.1.2.2.2
      languages_to_download db
    ({ st with db := db, fs := fetched.2 }, success)

/-- The `UPDATE videos SET audio_path|video_path, download_status,
file_size_mb, downloaded_at WHERE video_id` statement after a media fetch. -/
def mediaPathColumns (cfg : Config) (file_path : Option String)
    (download_status : String) (file_size : Nat) (r : VideoRecord) :
    VideoRecord :=
  if cfg.audio_only then
    { r with audio_path := file_path
             download_status := some download_status
             file_size_bytes := file_size }
  else
    { r with video_path := file_path
             download_status := some download_status
             file_size_bytes := file_size }

/-- The media step of one `download_all_missing` iteration: the cheap
existence probe, then `download_media` (which always returns normally),
the path/status column update and the media mark.  The block's own
`except Exception` handler — fed only by a runtime exception from outside
`download_media`, modelled by `env.mediaRaises` — re-raises
(`Except.error`) when the message looks authentication-related and
otherwise fails the step. -/
def mediaStep (cfg : Config) (env : ItemEnv) (video_id : String)
    (st : RunState) (success : Bool) :
    Except (String × RunState) (RunState × Bool) :=
  if ¬ quick_video_check env.quick then
    .ok ({ st with db := mark_step_completed st.db video_id .media false },
         false)
  else
    match env.mediaRaises with
    | some msg =>
      if strContains (pyLower msg) "authentication" ||
          strContains (pyLower msg) "manual intervention required" then
        .error (msg, st)
      else
        .ok ({ st with db := mark_step_completed st.db video_id .media false },
             false)
    | none =>
      let dl := download_media true st.fs env.mediaEnv env.altEnv video_id
      let db := updateVideo st.db video_id
        (mediaPathColumns cfg dl.1.1 dl.1.2.1 dl.1.2.2)
      let st := { st with db := db, fs := dl.2 }
      if dl.1.2.1 = "completed" then
        .ok ({ st with db := mark_step_completed st.db video_id .media true },
             success)
      else
        .ok ({ st with db := mark_step_completed st.db video_id .media false },
             false)

/-- The part of the loop body after the completion evaluation: the
subtitle step when languages are missing, the media step when media is
missing, then the final `completed` / `partial` status update and the
counter bump. -/
def processBody (cfg : Config) (env : ItemEnv) (video_id : String)
    (cs : CompletionStatus) (st : RunState) :
    Except (String × RunState) RunState :=
  if cs.is_fully_completed then .ok st
  else
    let stepped :=
      if cs.needs_subtitles then
        subtitleStep cfg env video_id cs.missing_subtitle_languages st true
      else (st, true)
    let act : Except (String × RunState) (RunState × Bool) :=
      if cs.needs_media then
        mediaStep cfg env video_id stepped.1 stepped.2
      else .ok stepped
    match act with
    | .error e => .error e
    | .ok fin =>
      if fin.2 then
        .ok { fin.1 with
              db := update_video_completion_status fin.1.db video_id none
                none none (some "completed") none
              success_count := fin.1.success_count + 1 }
      else
        .ok { fin.1 with
              db := update_video_completion_status fin.1.db video_id none
                none none (some "partial") none
              failed_count := fin.1.failed_count + 1 }

/-- The loop body of `download_all_missing` for one video (the big `try:`
block).  `Except.error (msg, st)` models an exception escaping the body
with message `msg`, leaving the already-persisted state `st` behind. -/
def processOne (cfg : Config) (env : ItemEnv) (video_id : String)
    (st : RunState) : Except (String × RunState) RunState :=
  let evaluated := get_video_completion_status st.db st.fs video_id
    cfg.download_subtitles cfg.subtitle_languages cfg.download_media
  processBody cfg env video_id evaluated.1 { st with db := evaluated.2 }

/-- The run-halting classification applied by the outer `except` handler:
`"authentication"`, `"manual intervention required"` or `"bot detection"`
in the lowered exception text. -/
def isCriticalMsg (msg : String) : Bool :=
  strContains (pyLower msg) "authentication" ||
  strContains (pyLower msg) "manual intervention required" ||
  strContains (pyLower msg) "bot detection"

/-- The state transition the outer handler applies for a non-critical
per-item exception: count the failure and mark the item `failed`. -/
def failItem (st : RunState) (video_id : String) : RunState :=
  { st with
    db := update_video_completion_status st.db video_id none none none
      (some "failed") none
    failed_count := st.failed_count + 1 }

/-- The item loop of `download_all_missing`: a critical exception breaks
out of the loop at once; any other escaping exception fails the item and
continues. -/
def acquireLoop (cfg : Config) (envOf : String → ItemEnv) :
    List String → RunState → RunState
  | [], st => st
  | vid :: rest, st =>
    match processOne cfg (envOf vid) vid st with
    | .ok st' => acquireLoop cfg envOf rest st'
    | .error (msg, st') =>
      if isCriticalMsg msg then st'
      else acquireLoop cfg envOf rest (failItem st' vid)

/-- `download_all_missing`: selects the not-completed rows oldest-first and
runs the item loop over them. -/
def download_all_missing (cfg : Config) (envOf : String → ItemEnv)
    (db : DB) (fs : FS) : RunState :=
  acquireLoop cfg envOf ((videos_to_process db).map (fun r => r.video_id))
    { db := db, fs := fs, success_count := 0, failed_count := 0 }

/-- Runs a prefix of the item loop; `some st` when no critical exception
broke the loop within the prefix, `none` otherwise. -/
def processPrefix (cfg : Config) (envOf : String → ItemEnv) :
    List String → RunState → Option RunState
  | [], st => some st
  | vid :: rest, st =>
    match processOne cfg (envOf vid) vid st with
    | .ok st' => processPrefix cfg envOf rest st'
    | .error (msg, st') =>
      if isCriticalMsg msg then none
      else processPrefix cfg envOf rest (failItem st' vid)

/-- The state left behind by one loop body, whether it returned or raised. -/
def resState : Except (String × RunState) RunState → RunState
  | .ok st => st
  | .error (_, st) => st

/-! ## Discovery stage (`discover_all_videos`) -/

/-- One descriptor yielded by the remote enumeration, already flattened the
way `extract_video_data` flattens the raw dictionary (title and description
as joined text runs, etc.); only the fields the discovery loop consults are
kept. -/
structure VideoDesc where
  videoId : String
  title : String := ""
  length_text : String := ""
  deriving Repr, DecidableEq

/-- One row of `scraping_progress` (the collection cursor): watermark and
running total. -/
structure ProgressRec where
  last_video_id : Option String := none
  total_scraped : Nat := 0
  deriving Repr, DecidableEq

/-- The content filters of one discovery run. -/
structure Filters where
  titlePattern : Option (String → Bool) := none
  min_duration_minutes : Option Int := none
  max_duration_minutes : Option Int := none
  duration_filter_strict : Bool := false

/-- Python truthiness of the stored watermark (`not last_video_id`): both
`NULL` and the empty string count as absent. -/
def strOptFalsy : Option String → Bool
  | none => true
  | some s => s = ""

/-- The record Discovery persists for an accepted descriptor:
`download_status = 'pending'`, `metadata_completed = True`,
`processing_status = 'metadata_only'`; `scraped_at` is the insertion tick. -/
def mkDiscoveredRecord (v : VideoDesc) (clock : Nat) : VideoRecord :=
  { video_id := v.videoId
    title := v.title
    length_text := v.length_text
    scraped_at := clock
    metadata_completed := true
    download_status := some "pending"
    processing_status := some "metadata_only" }

/-- The in-flight state of the discovery loop. -/
structure DiscoverState where
  db : DB
  processed_count : Nat
  skipped_count : Nat
  saved_count : Nat
  batch_videos : List String
  found_last_video : Bool
  progress : ProgressRec
  clock : Nat
  deriving Repr, DecidableEq

/-- One iteration of the discovery loop: skip until the watermark has been
observed once (inclusive), skip rows already in the ledger, apply the
content filters, persist accepted items, and checkpoint the cursor every
`batch_size = 50` saved items. -/
def discoverStep (f : Filters) (last_video_id : Option String)
    (st : DiscoverState) (video : VideoDesc) : DiscoverState :=
  if ¬ st.found_last_video then
    if some video.videoId = last_video_id then { st with found_last_video := true }
    else st
  else if is_video_exists st.db video.videoId then
    { st with skipped_count := st.skipped_count + 1 }
  else
    let should_process := (should_process_video f.titlePattern
      f.min_duration_minutes f.max_duration_minutes f.duration_filter_strict
      video.title video.length_text).1
    if ¬ should_process then { st with skipped_count := st.skipped_count + 1 }
    else
      let newRow := mkDiscoveredRecord video st.clock
      let st := { st with
        db := insertOrReplace st.db newRow
        saved_count := st.saved_count + 1
        processed_count := st.processed_count + 1
        batch_videos := st.batch_videos ++ [video.videoId]
        clock := st.clock + 1 }
      if st.processed_count % 50 = 0 then
        { st with progress := ⟨some video.videoId, st.saved_count⟩ }
      else st

/-- The enumeration walk of `discover_all_videos`. -/
def discoverLoop (f : Filters) (last_video_id : Option String) :
    List VideoDesc → DiscoverState → DiscoverState
  | [], st => st
  | v :: rest, st => discoverLoop f last_video_id rest (discoverStep f last_video_id st v)

/-- What one discovery run returns and leaves behind. -/
structure DiscoverResult where
  net : Nat
  db : DB
  progress : ProgressRec
  clock : Nat
  deriving Repr, DecidableEq

/-- `discover_all_videos` on a finite enumeration: loads the cursor, walks
the enumeration, and finally checkpoints the cursor to the last saved item
when anything was saved.  Returns the net number of newly saved items. -/
def discover_all_videos (f : Filters) (enum : List VideoDesc) (db : DB)
    (progress : ProgressRec) (clock : Nat) : DiscoverResult :=
  let start_count := progress.total_scraped
  let last_video_id := progress.last_video_id
  let st0 : DiscoverState :=
    { db := db, processed_count := 0, skipped_count := 0
      saved_count := start_count, batch_videos := []
      found_last_video := strOptFalsy last_video_id
      progress := progress, clock := clock }
  let st := discoverLoop f last_video_id enum st0
  let progress' := match st.batch_videos.getLast? with
    | some lastSaved => (⟨some lastSaved, st.saved_count⟩ : ProgressRec)
    | none => st.progress
  { net := st.saved_count - start_count, db := st.db, progress := progress'
    clock := st.clock }

/-- The stored per-language subtitle status of one ledger row, seen through
the ledger (`none` when the row is absent). -/
def subEntry (db : DB) (vid lang : String) : Option String :=
  match getVideo db vid with
  | some r => dictGet r.subtitles_completed lang
  | none => none

/-! # Lemmas and claim theorems -/

/-! ## Ledger locality: an `UPDATE ... WHERE video_id = ?` touches no other
row -/

theorem getVideo_updateVideo_ne (db : DB) (id w : String)
    (f : VideoRecord → VideoRecord) (hf : ∀ r, (f r).video_id = r.video_id)
    (hw : w ≠ id) : getVideo (updateVideo db id f) w = getVideo db w := by
  induction db with
  | nil => rfl
  | cons r t ih =>
    simp only [updateVideo, List.map_cons, getVideo, List.find?] at *
    by_cases h1 : r.video_id == id
    · simp only [h1, if_pos, if_true]
      have h2 : ((f r).video_id == w) = false := by
        rw [hf r]
        have : r.video_id = id := by simpa using h1
        simp [this, (Ne.symm hw)]
      have h3 : (r.video_id == w) = false := by
        have : r.video_id = id := by simpa using h1
        simp [this, (Ne.symm hw)]
      simp only [h2, h3]
      exact ih
    · simp only [Bool.not_eq_true] at h1
      simp only [h1, if_neg, Bool.false_eq_true, if_false]
      by_cases h2 : r.video_id == w
      · simp [h2]
      · simp only [Bool.not_eq_true] at h2
        simp only [h2]
        exact ih

theorem getVideo_updateVideo_self (db : DB) (id : String)
    (f : VideoRecord → VideoRecord) (hf : ∀ r, (f r).video_id = r.video_id) :
    getVideo (updateVideo db id f) id = (getVideo db id).map f := by
  induction db with
  | nil => rfl
  | cons r t ih =>
    simp only [updateVideo, List.map_cons, getVideo, List.find?] at *
    by_cases h1 : r.video_id == id
    · have h2 : ((f r).video_id == id) = true := by rw [hf r]; exact h1
      simp [h1, h2]
    · simp only [Bool.not_eq_true] at h1
      simp only [h1, Bool.false_eq_true, if_false]
      exact ih

/-! ## Association-list (JSON dict) lemmas -/

theorem dictGet_mapSet_self (d : List (String × String)) (k v : String)
    (ha : d.any (fun p => p.1 == k) = true) :
    dictGet (d.map (fun p => if p.1 == k then (k, v) else p)) k = some v := by
  induction d with
  | nil => simp at ha
  | cons p t ih =>
    by_cases h1 : (p.1 == k) = true
    · simp [dictGet, List.find?, h1]
    · have h1' : (p.1 == k) = false := by simpa using h1
      have ha2 : t.any (fun p => p.1 == k) = true := by
        simpa [List.any_cons, h1'] using ha
      simp only [List.map_cons, h1', Bool.false_eq_true, if_false]
      simp only [dictGet, List.find?_cons, h1'] at ih ⊢
      exact ih ha2

theorem dictGet_append_single_self (d : List (String × String)) (k v : String)
    (ha : d.any (fun p => p.1 == k) = false) :
    dictGet (d ++ [(k, v)]) k = some v := by
  have hn : d.find? (fun p => p.1 == k) = none := by
    rw [List.find?_eq_none]
    intro p hp hc
    have : d.any (fun p => p.1 == k) = true := by
      rw [List.any_eq_true]; exact ⟨p, hp, hc⟩
    rw [this] at ha; cases ha
  simp [dictGet, List.find?_append, hn, List.find?]

theorem dictGet_dictInsert_self (d : List (String × String)) (k v : String) :
    dictGet (dictInsert d k v) k = some v := by
  unfold dictInsert
  by_cases h : d.any (fun p => p.1 == k) = true
  · rw [if_pos h]; exact dictGet_mapSet_self d k v h
  · have h' : d.any (fun p => p.1 == k) = false :=
      Bool.eq_false_iff.mpr h
    rw [if_neg h]; exact dictGet_append_single_self d k v h'

theorem dictGet_mapSet_ne (d : List (String × String)) (k v l : String)
    (h : l ≠ k) :
    dictGet (d.map (fun p => if p.1 == k then (k, v) else p)) l = dictGet d l := by
  induction d with
  | nil => rfl
  | cons p t ih =>
    by_cases h1 : (p.1 == k) = true
    · have hp : p.1 = k := by simpa using h1
      have h2 : (p.1 == l) = false := by simp [hp]; exact Ne.symm h
      have h3 : (k == l) = false := by simp; exact Ne.symm h
      simp only [List.map_cons, h1, if_true, dictGet, List.find?_cons, h2, h3]
      simpa [dictGet] using ih
    · have h1' : (p.1 == k) = false := by simpa using h1
      simp only [List.map_cons, h1', Bool.false_eq_true, if_false]
      by_cases h2 : (p.1 == l) = true
      · simp [dictGet, List.find?_cons, h2]
      · have h2' : (p.1 == l) = false := by simpa using h2
        simp only [dictGet, List.find?_cons, h2'] at ih ⊢
        exact ih

theorem dictGet_append_single_ne (d : List (String × String)) (k v l : String)
    (h : l ≠ k) : dictGet (d ++ [(k, v)]) l = dictGet d l := by
  have h3 : (k == l) = false := by simp; exact Ne.symm h
  unfold dictGet
  rw [List.find?_append]
  cases hf : d.find? (fun p => p.1 == l) with
  | some p => simp [hf]
  | none => simp [hf, List.find?, h3]

theorem dictGet_dictInsert_ne (d : List (String × String)) (k v l : String)
    (h : l ≠ k) : dictGet (dictInsert d k v) l = dictGet d l := by
  unfold dictInsert
  by_cases ha : d.any (fun p => p.1 == k) = true
  · rw [if_pos ha]; exact dictGet_mapSet_ne d k v l h
  · rw [if_neg ha]; exact dictGet_append_single_ne d k v l h

/-- `current.update({k: v})` sets key `k`. -/
theorem dictGet_dictUpdate_single_self (d : List (String × String))
    (k v : String) : dictGet (dictUpdate d [(k, v)]) k = some v := by
  simp only [dictUpdate, List.foldl_cons, List.foldl_nil]
  exact dictGet_dictInsert_self d k v

/-- `current.update({k: v})` leaves every other key alone. -/
theorem dictGet_dictUpdate_single_ne (d : List (String × String))
    (k v l : String) (h : l ≠ k) :
    dictGet (dictUpdate d [(k, v)]) l = dictGet d l := by
  simp only [dictUpdate, List.foldl_cons, List.foldl_nil]
  exact dictGet_dictInsert_ne d k v l h

/-! ## Field behavior of the completion update -/

theorem applyCompletionUpdate_video_id (m? : Option Bool)
    (s? : Option (List (String × String))) (md? : Option Bool)
    (p? l? : Option String) (r : VideoRecord) :
    (applyCompletionUpdate m? s? md? p? l? r).video_id = r.video_id := by
  unfold applyCompletionUpdate
  rcases m? <;> rcases s? <;> rcases md? <;> rcases p? <;> rcases l? <;> rfl

theorem applyCompletionUpdate_subs (m? : Option Bool)
    (s? : Option (List (String × String))) (md? : Option Bool)
    (p? l? : Option String) (r : VideoRecord) :
    (applyCompletionUpdate m? s? md? p? l? r).subtitles_completed =
      match s? with
      | some d => dictUpdate r.subtitles_completed d
      | none => r.subtitles_completed := by
  unfold applyCompletionUpdate
  rcases m? <;> rcases s? <;> rcases md? <;> rcases p? <;> rcases l? <;> rfl

theorem applyCompletionUpdate_status (m? : Option Bool)
    (s? : Option (List (String × String))) (md? : Option Bool)
    (ps l? : Option String) (r : VideoRecord) :
    (applyCompletionUpdate m? s? md? ps l? r).processing_status =
      match ps with
      | some s => some s
      | none => r.processing_status := by
  unfold applyCompletionUpdate
  rcases m? <;> rcases s? <;> rcases md? <;> rcases ps <;> rcases l? <;> rfl

theorem getVideo_uvcs_ne (db : DB) (id w : String) (m? : Option Bool)
    (s? : Option (List (String × String))) (md? : Option Bool)
    (p? l? : Option String) (hw : w ≠ id) :
    getVideo (update_video_completion_status db id m? s? md? p? l?) w =
      getVideo db w :=
  getVideo_updateVideo_ne db id w _
    (applyCompletionUpdate_video_id m? s? md? p? l?) hw

theorem getVideo_uvcs_self (db : DB) (id : String) (m? : Option Bool)
    (s? : Option (List (String × String))) (md? : Option Bool)
    (p? l? : Option String) :
    getVideo (update_video_completion_status db id m? s? md? p? l?) id =
      (getVideo db id).map (applyCompletionUpdate m? s? md? p? l?) :=
  getVideo_updateVideo_self db id _
    (applyCompletionUpdate_video_id m? s? md? p? l?)

theorem getVideo_mark_ne (db : DB) (id w : String) (step : Step) (b : Bool)
    (hw : w ≠ id) :
    getVideo (mark_step_completed db id step b) w = getVideo db w := by
  cases step <;> exact getVideo_uvcs_ne _ _ _ _ _ _ _ _ hw

/-! ## Per-language stored status through the operations (`subEntry`) -/

theorem subEntry_updateVideo_pres (db : DB) (vid lang : String)
    (f : VideoRecord → VideoRecord) (hf : ∀ r, (f r).video_id = r.video_id)
    (hs : ∀ r, (f r).subtitles_completed = r.subtitles_completed) :
    subEntry (updateVideo db vid f) vid lang = subEntry db vid lang := by
  unfold subEntry
  rw [getVideo_updateVideo_self db vid f hf]
  cases getVideo db vid with
  | none => rfl
  | some r => simp [hs r]

theorem subEntry_uvcs_none (db : DB) (vid lang : String) (m? md? : Option Bool)
    (p? l? : Option String) :
    subEntry (update_video_completion_status db vid m? none md? p? l?) vid lang =
      subEntry db vid lang :=
  subEntry_updateVideo_pres db vid lang _
    (applyCompletionUpdate_video_id m? none md? p? l?)
    (fun r => applyCompletionUpdate_subs m? none md? p? l? r)

theorem subEntry_uvcs_single_ne (db : DB) (vid lang k v : String)
    (m? md? : Option Bool) (p? l? : Option String) (h : lang ≠ k) :
    subEntry (update_video_completion_status db vid m? (some [(k, v)]) md? p? l?)
      vid lang = subEntry db vid lang := by
  unfold subEntry
  rw [getVideo_uvcs_self]
  cases getVideo db vid with
  | none => rfl
  | some r =>
    simp only [Option.map_some']
    rw [applyCompletionUpdate_subs]
    exact dictGet_dictUpdate_single_ne _ k v lang h

theorem subEntry_uvcs_single_self (db : DB) (vid k v : String)
    (m? md? : Option Bool) (p? l? : Option String) (r : VideoRecord)
    (hr : getVideo db vid = some r) :
    subEntry (update_video_completion_status db vid m? (some [(k, v)]) md? p? l?)
      vid k = some v := by
  unfold subEntry
  rw [getVideo_uvcs_self, hr]
  simp only [Option.map_some']
  rw [applyCompletionUpdate_subs]
  exact dictGet_dictUpdate_single_self _ k v

theorem subEntry_mark_other (db : DB) (vid lang : String) (b : Bool)
    (step : Step) (hstep : ∀ l, step = .subtitles l → l ≠ lang) :
    subEntry (mark_step_completed db vid step b) vid lang =
      subEntry db vid lang := by
  cases step with
  | metadata => exact subEntry_uvcs_none db vid lang _ _ _ _
  | media => exact subEntry_uvcs_none db vid lang _ _ _ _
  | subtitles l =>
    exact subEntry_uvcs_single_ne db vid lang l _ _ _ _ _
      (Ne.symm (hstep l rfl))

/-- The stored overall processing status of one ledger row, seen through
the ledger. -/
def statusAt (db : DB) (vid : String) : Option (Option String) :=
  (getVideo db vid).map (fun r => r.processing_status)

theorem statusAt_uvcs_set (db : DB) (vid : String) (m? : Option Bool)
    (s? : Option (List (String × String))) (md? : Option Bool)
    (ps : String) (l? : Option String) (h : (getVideo db vid).isSome) :
    statusAt (update_video_completion_status db vid m? s? md? (some ps) l?)
      vid = some (some ps) := by
  unfold statusAt
  rw [getVideo_uvcs_self]
  cases hg : getVideo db vid with
  | none => rw [hg] at h; cases h
  | some r => simp [applyCompletionUpdate_status]

/-! ## The evaluator's per-language scan -/

theorem scanStep_getVideo_ne (fs : FS) (vid w : String) (r : VideoRecord)
    (acc : Bool × List String × DB) (l : String) (hw : w ≠ vid) :
    getVideo (subtitleScanStep fs vid r acc l).2.2 w = getVideo acc.2.2 w := by
  unfold subtitleScanStep
  split
  · rfl
  · split
    · rfl
    · simp only []
      split
      · exact getVideo_uvcs_ne _ _ _ _ _ _ _ _ hw
      · rfl

theorem scan_getVideo_ne (fs : FS) (vid w : String) (r : VideoRecord)
    (hw : w ≠ vid) (langs : List String) :
    ∀ acc, getVideo (subtitleScan fs vid r langs acc).2.2 w =
      getVideo acc.2.2 w := by
  induction langs with
  | nil => intro acc; rfl
  | cons l rest ih =>
    intro acc
    show getVideo (subtitleScan fs vid r rest
      (subtitleScanStep fs vid r acc l)).2.2 w = _
    rw [ih (subtitleScanStep fs vid r acc l)]
    exact scanStep_getVideo_ne fs vid w r acc l hw

/-- A step for a language other than `lang`, or for `lang` itself when its
stored status is `not_available`, does not change `lang`'s stored status. -/
theorem scanStep_subEntry_na (fs : FS) (vid lang : String) (r : VideoRecord)
    (hna : dictGet r.subtitles_completed lang = some "not_available")
    (acc : Bool × List String × DB) (l : String) :
    subEntry (subtitleScanStep fs vid r acc l).2.2 vid lang =
      subEntry acc.2.2 vid lang := by
  unfold subtitleScanStep
  by_cases hl : l = lang
  · subst hl
    rw [if_pos hna]
  · split
    · rfl
    · split
      · rfl
      · simp only []
        split
        · exact subEntry_uvcs_single_ne _ _ _ _ _ _ _ _ _ (Ne.symm hl)
        · rfl

theorem scan_subEntry_na (fs : FS) (vid lang : String) (r : VideoRecord)
    (hna : dictGet r.subtitles_completed lang = some "not_available")
    (langs : List String) :
    ∀ acc, subEntry (subtitleScan fs vid r langs acc).2.2 vid lang =
      subEntry acc.2.2 vid lang := by
  induction langs with
  | nil => intro acc; rfl
  | cons l rest ih =>
    intro acc
    show subEntry (subtitleScan fs vid r rest
      (subtitleScanStep fs vid r acc l)).2.2 vid lang = _
    rw [ih (subtitleScanStep fs vid r acc l)]
    exact scanStep_subEntry_na fs vid lang r hna acc l

/-- A `not_available` language is never appended to the missing list. -/
theorem scanStep_not_mem_na (fs : FS) (vid lang : String) (r : VideoRecord)
    (hna : dictGet r.subtitles_completed lang = some "not_available")
    (acc : Bool × List String × DB) (l : String) (h : lang ∉ acc.2.1) :
    lang ∉ (subtitleScanStep fs vid r acc l).2.1 := by
  unfold subtitleScanStep
  by_cases hl : l = lang
  · subst hl
    rw [if_pos hna]
    exact h
  · split
    · exact h
    · split
      · exact h
      · simp only [List.mem_append, List.mem_singleton]
        rintro (hc | hc)
        · exact h hc
        · exact hl hc.symm

theorem scan_not_mem_na (fs : FS) (vid lang : String) (r : VideoRecord)
    (hna : dictGet r.subtitles_completed lang = some "not_available")
    (langs : List String) :
    ∀ acc, lang ∉ acc.2.1 →
      lang ∉ (subtitleScan fs vid r langs acc).2.1 := by
  induction langs with
  | nil => intro acc h; exact h
  | cons l rest ih =>
    intro acc h
    show lang ∉ (subtitleScan fs vid r rest
      (subtitleScanStep fs vid r acc l)).2.1
    exact ih _ (scanStep_not_mem_na fs vid lang r hna acc l h)

/-! Preservation of existence, of the `needs_subtitles` flag, of membership
in the missing list, and of the downgrade facts through the tail of the
scan. -/

theorem scanStep_isSome (fs : FS) (vid : String) (r : VideoRecord)
    (acc : Bool × List String × DB) (l : String)
    (h : (getVideo acc.2.2 vid).isSome) :
    (getVideo (subtitleScanStep fs vid r acc l).2.2 vid).isSome := by
  unfold subtitleScanStep
  split
  · exact h
  · split
    · exact h
    · simp only []
      split
      · rw [getVideo_uvcs_self]
        cases hg : getVideo acc.2.2 vid with
        | none => rw [hg] at h; cases h
        | some q => simp
      · exact h

theorem scanStep_needs_mono (fs : FS) (vid : String) (r : VideoRecord)
    (acc : Bool × List String × DB) (l : String) (h : acc.1 = true) :
    (subtitleScanStep fs vid r acc l).1 = true := by
  unfold subtitleScanStep
  split
  · exact h
  · split
    · exact h
    · rfl

theorem scanStep_mem_mono (fs : FS) (vid lang : String) (r : VideoRecord)
    (acc : Bool × List String × DB) (l : String) (h : lang ∈ acc.2.1) :
    lang ∈ (subtitleScanStep fs vid r acc l).2.1 := by
  unfold subtitleScanStep
  split
  · exact h
  · split
    · exact h
    · exact List.mem_append_left _ h

/-- The two downgrade facts (`lang ↦ missing`, overall status `partial`)
survive one further scan step. -/
theorem scanStep_downgrade_pres (fs : FS) (vid lang : String) (r : VideoRecord)
    (acc : Bool × List String × DB) (l : String)
    (h1 : subEntry acc.2.2 vid lang = some "missing")
    (h2 : statusAt acc.2.2 vid = some (some "partial")) :
    subEntry (subtitleScanStep fs vid r acc l).2.2 vid lang = some "missing" ∧
    statusAt (subtitleScanStep fs vid r acc l).2.2 vid =
      some (some "partial") := by
  have hex : (getVideo acc.2.2 vid).isSome := by
    unfold statusAt at h2
    cases hg : getVideo acc.2.2 vid with
    | none => rw [hg] at h2; cases h2
    | some q => simp
  obtain ⟨q, hq⟩ := Option.isSome_iff_exists.mp hex
  unfold subtitleScanStep
  split
  · exact ⟨h1, h2⟩
  · split
    · exact ⟨h1, h2⟩
    · simp only []
      split
      · constructor
        · by_cases hl : l = lang
          · subst hl
            exact subEntry_uvcs_single_self _ _ _ _ _ _ _ _ q hq
          · rw [subEntry_uvcs_single_ne _ _ _ _ _ _ _ _ _ (Ne.symm hl)]
            exact h1
        · exact statusAt_uvcs_set _ _ _ _ _ _ _ hex
      · exact ⟨h1, h2⟩

theorem scan_downgrade_pres (fs : FS) (vid lang : String) (r : VideoRecord)
    (langs : List String) :
    ∀ acc, subEntry acc.2.2 vid lang = some "missing" →
      statusAt acc.2.2 vid = some (some "partial") →
      subEntry (subtitleScan fs vid r langs acc).2.2 vid lang = some "missing" ∧
      statusAt (subtitleScan fs vid r langs acc).2.2 vid =
        some (some "partial") := by
  induction langs with
  | nil => intro acc h1 h2; exact ⟨h1, h2⟩
  | cons l rest ih =>
    intro acc h1 h2
    obtain ⟨h1', h2'⟩ := scanStep_downgrade_pres fs vid lang r acc l h1 h2
    exact ih _ h1' h2'

theorem scan_needs_mono (fs : FS) (vid : String) (r : VideoRecord)
    (langs : List String) :
    ∀ acc, acc.1 = true → (subtitleScan fs vid r langs acc).1 = true := by
  induction langs with
  | nil => intro acc h; exact h
  | cons l rest ih =>
    intro acc h
    exact ih _ (scanStep_needs_mono fs vid r acc l h)

theorem scan_mem_mono (fs : FS) (vid lang : String) (r : VideoRecord)
    (langs : List String) :
    ∀ acc, lang ∈ acc.2.1 → lang ∈ (subtitleScan fs vid r langs acc).2.1 := by
  induction langs with
  | nil => intro acc h; exact h
  | cons l rest ih =>
    intro acc h
    exact ih _ (scanStep_mem_mono fs vid lang r acc l h)

theorem scan_isSome (fs : FS) (vid : String) (r : VideoRecord)
    (langs : List String) :
    ∀ acc, (getVideo acc.2.2 vid).isSome →
      (getVideo (subtitleScan fs vid r langs acc).2.2 vid).isSome := by
  induction langs with
  | nil => intro acc h; exact h
  | cons l rest ih =>
    intro acc h
    exact ih _ (scanStep_isSome fs vid r acc l h)

/-- The central establishment lemma for the filesystem-is-truth property:
scanning a language list containing `lang`, whose stored status claims
`completed` while no non-empty caption file exists, reports `lang` missing,
raises the `needs_subtitles` flag, and downgrades the row. -/
theorem scan_establishes (fs : FS) (vid lang : String) (r : VideoRecord)
    (hst : dictGet r.subtitles_completed lang = some "completed")
    (hfs : (subFileNonEmpty fs lang vid true
      || subFileNonEmpty fs lang vid false) = false)
    (langs : List String) :
    ∀ acc, lang ∈ langs → (getVideo acc.2.2 vid).isSome →
      lang ∈ (subtitleScan fs vid r langs acc).2.1 ∧
      (subtitleScan fs vid r langs acc).1 = true ∧
      subEntry (subtitleScan fs vid r langs acc).2.2 vid lang =
        some "missing" ∧
      statusAt (subtitleScan fs vid r langs acc).2.2 vid =
        some (some "partial") := by
  induction langs with
  | nil => intro acc h; cases h
  | cons l rest ih =>
    intro acc hmem hex
    by_cases hl : l = lang
    · subst hl
      -- the head step performs the downgrade
      have hstep : subtitleScanStep fs vid r acc l =
          (true, acc.2.1 ++ [l],
            update_video_completion_status acc.2.2 vid none
              (some [(l, "missing")]) none (some "partial") none) := by
        unfold subtitleScanStep
        rw [hst, hfs]
        simp
      obtain ⟨q, hq⟩ := Option.isSome_iff_exists.mp hex
      have hsub : subEntry (subtitleScanStep fs vid r acc l).2.2 vid l =
          some "missing" := by
        rw [hstep]
        exact subEntry_uvcs_single_self _ _ _ _ _ _ _ _ q hq
      have hat : statusAt (subtitleScanStep fs vid r acc l).2.2 vid =
          some (some "partial") := by
        rw [hstep]
        exact statusAt_uvcs_set _ _ _ _ _ _ _ hex
      have hmem' : l ∈ (subtitleScanStep fs vid r acc l).2.1 := by
        rw [hstep]
        exact List.mem_append_right _ (List.mem_singleton_self l)
      have hneeds : (subtitleScanStep fs vid r acc l).1 = true := by
        rw [hstep]
      show l ∈ (subtitleScan fs vid r rest (subtitleScanStep fs vid r acc l)).2.1 ∧ _
      refine ⟨scan_mem_mono fs vid l r rest _ hmem',
        scan_needs_mono fs vid r rest _ hneeds, ?_, ?_⟩
      · exact (scan_downgrade_pres fs vid l r rest _ hsub hat).1
      · exact (scan_downgrade_pres fs vid l r rest _ hsub hat).2
    · have hmem' : lang ∈ rest := by
        rcases List.mem_cons.mp hmem with h | h
        · exact absurd h.symm hl
        · exact h
      have hex' : (getVideo (subtitleScanStep fs vid r acc l).2.2 vid).isSome :=
        scanStep_isSome fs vid r acc l hex
      exact ih _ hmem' hex'

/-! ## Evaluator-level lemmas -/

/-- The evaluator touches no ledger row other than the one it evaluates. -/
theorem gvcs_getVideo_ne (db : DB) (fs : FS) (vid : String) (ds : Bool)
    (langs : List String) (dm : Bool) (w : String) (hw : w ≠ vid) :
    getVideo (get_video_completion_status db fs vid ds langs dm).2 w =
      getVideo db w := by
  unfold get_video_completion_status
  cases hg : getVideo db vid with
  | none => rfl
  | some r =>
    dsimp only
    repeat' split
    all_goals dsimp only
    all_goals
      first
      | rfl
      | exact scan_getVideo_ne fs vid w r hw langs _
      | (rw [getVideo_uvcs_ne _ _ _ _ _ _ _ _ hw]
         try first
         | rfl
         | exact scan_getVideo_ne fs vid w r hw langs _)

/-- A language stored as `not_available` keeps that stored status through
the evaluator. -/
theorem gvcs_subEntry_na (db : DB) (fs : FS) (vid lang : String) (ds : Bool)
    (langs : List String) (dm : Bool) (r : VideoRecord)
    (hr : getVideo db vid = some r)
    (hna : dictGet r.subtitles_completed lang = some "not_available") :
    subEntry (get_video_completion_status db fs vid ds langs dm).2 vid lang =
      subEntry db vid lang := by
  unfold get_video_completion_status
  rw [hr]
  dsimp only
  repeat' split
  all_goals dsimp only
  all_goals
    first
    | rfl
    | exact scan_subEntry_na fs vid lang r hna langs _
    | (rw [subEntry_uvcs_none]
       try first
       | rfl
       | exact scan_subEntry_na fs vid lang r hna langs _)

/-- A language stored as `not_available` is never reported missing. -/
theorem gvcs_missing_na (db : DB) (fs : FS) (vid lang : String) (ds : Bool)
    (langs : List String) (dm : Bool) (r : VideoRecord)
    (hr : getVideo db vid = some r)
    (hna : dictGet r.subtitles_completed lang = some "not_available") :
    lang ∉ (get_video_completion_status db fs vid ds langs
      dm).1.missing_subtitle_languages := by
  unfold get_video_completion_status
  rw [hr]
  dsimp only
  split
  · exact scan_not_mem_na fs vid lang r hna langs _ (by simp)
  · simp

/-- C2 core: a stored `completed` flag with no caption file on disk is
reported missing and downgraded by the evaluator. -/
theorem gvcs_downgrades (db : DB) (fs : FS) (vid lang : String)
    (langs : List String) (dm : Bool) (r : VideoRecord)
    (hr : getVideo db vid = some r) (hlang : lang ∈ langs)
    (hst : dictGet r.subtitles_completed lang = some "completed")
    (hfs : (subFileNonEmpty fs lang vid true
      || subFileNonEmpty fs lang vid false) = false) :
    lang ∈ (get_video_completion_status db fs vid true langs
        dm).1.missing_subtitle_languages ∧
    (get_video_completion_status db fs vid true langs
        dm).1.needs_subtitles = true ∧
    subEntry (get_video_completion_status db fs vid true langs dm).2 vid lang =
      some "missing" ∧
    statusAt (get_video_completion_status db fs vid true langs dm).2 vid =
      some (some "partial") := by
  have hex : (getVideo db vid).isSome := by rw [hr]; simp
  have hscan := scan_establishes fs vid lang r hst hfs langs
    (false, [], db) hlang (by simpa using hex)
  obtain ⟨hmem, hneeds, hsub, hat⟩ := hscan
  unfold get_video_completion_status
  rw [hr]
  dsimp only
  rw [if_pos rfl]
  refine ⟨hmem, hneeds, ?_⟩
  have hex' : (getVideo (subtitleScan fs vid r langs (false, [], db)).2.2
      vid).isSome := by
    unfold statusAt at hat
    cases hg : getVideo (subtitleScan fs vid r langs (false, [], db)).2.2 vid with
    | none => rw [hg] at hat; cases hat
    | some q => simp
  split
  · split
    · split
      · exact ⟨by rw [subEntry_uvcs_none]; exact hsub,
          statusAt_uvcs_set _ _ _ _ _ _ _ hex'⟩
      · exact ⟨hsub, hat⟩
    · exact ⟨hsub, hat⟩
  · exact ⟨hsub, hat⟩

/-- Claim C2 (filesystem is truth): for any item whose stored per-language
subtitle status is `completed` for a requested language, but for which
neither a non-empty manual-caption file nor a non-empty auto-caption file
exists on disk for that language, `get_video_completion_status` reports the
language among `missing_subtitle_languages` with `needs_subtitles` raised,
downgrades the stored per-language flag to `missing`, and sets the stored
overall processing status to `partial`. -/
theorem C2_filesystem_is_truth (db : DB) (fs : FS) (vid lang : String)
    (langs : List String) (dm : Bool) (r : VideoRecord)
    (hr : getVideo db vid = some r) (hlang : lang ∈ langs)
    (hst : dictGet r.subtitles_completed lang = some "completed")
    (hfs : (subFileNonEmpty fs lang vid true
      || subFileNonEmpty fs lang vid false) = false) :
    lang ∈ (get_video_completion_status db fs vid true langs
        dm).1.missing_subtitle_languages ∧
    (get_video_completion_status db fs vid true langs
        dm).1.needs_subtitles = true ∧
    subEntry (get_video_completion_status db fs vid true langs dm).2 vid lang =
      some "missing" ∧
    statusAt (get_video_completion_status db fs vid true langs dm).2 vid =
      some (some "partial") :=
  gvcs_downgrades db fs vid lang langs dm r hr hlang hst hfs

/-- The C2 witness row: stored subtitle status `completed` for `en`, but
nothing on disk. -/
def c2row : VideoRecord :=
  { video_id := "x", metadata_completed := true
    subtitles_completed := [("en", "completed")]
    processing_status := some "completed" }

/-- Witness for C2 at a concrete input. -/
theorem C2_witness :
    "en" ∈ (get_video_completion_status [c2row] ⟨[], []⟩ "x" true ["en"]
        false).1.missing_subtitle_languages ∧
    (get_video_completion_status [c2row] ⟨[], []⟩ "x" true ["en"]
        false).1.needs_subtitles = true ∧
    subEntry (get_video_completion_status [c2row] ⟨[], []⟩ "x" true ["en"]
        false).2 "x" "en" = some "missing" ∧
    statusAt (get_video_completion_status [c2row] ⟨[], []⟩ "x" true ["en"]
        false).2 "x" = some (some "partial") :=
  C2_filesystem_is_truth [c2row] ⟨[], []⟩ "x" "en" ["en"] false c2row
    (by rfl) (by decide) (by rfl) (by rfl)

/-! ## Discovery lemmas -/

/-- A discovery step on an already-recorded item changes nothing but the
skip counter (or, before the watermark, the found flag). -/
theorem discoverStep_exists_pres (f : Filters) (lastId : Option String)
    (st : DiscoverState) (v : VideoDesc)
    (h : is_video_exists st.db v.videoId = true) :
    (discoverStep f lastId st v).db = st.db ∧
    (discoverStep f lastId st v).saved_count = st.saved_count ∧
    (discoverStep f lastId st v).batch_videos = st.batch_videos ∧
    (discoverStep f lastId st v).progress = st.progress ∧
    (discoverStep f lastId st v).clock = st.clock := by
  unfold discoverStep
  split
  · split <;> exact ⟨rfl, rfl, rfl, rfl, rfl⟩
  · simp [h]

/-- When every enumerated item is already recorded, the discovery loop
saves nothing, checkpoints nothing and leaves the ledger untouched. -/
theorem discoverLoop_no_new (f : Filters) (lastId : Option String)
    (enum : List VideoDesc) :
    ∀ st : DiscoverState, (∀ v ∈ enum, is_video_exists st.db v.videoId = true) →
      (discoverLoop f lastId enum st).db = st.db ∧
      (discoverLoop f lastId enum st).saved_count = st.saved_count ∧
      (discoverLoop f lastId enum st).batch_videos = st.batch_videos ∧
      (discoverLoop f lastId enum st).progress = st.progress ∧
      (discoverLoop f lastId enum st).clock = st.clock := by
  induction enum with
  | nil => intro st _; exact ⟨rfl, rfl, rfl, rfl, rfl⟩
  | cons v rest ih =>
    intro st hall
    have hv : is_video_exists st.db v.videoId = true := hall v (by simp)
    obtain ⟨hdb, hsv, hbt, hpr, hck⟩ := discoverStep_exists_pres f lastId st v hv
    have hall' : ∀ u ∈ rest, is_video_exists (discoverStep f lastId st v).db
        u.videoId = true := by
      intro u hu; rw [hdb]; exact hall u (by simp [hu])
    obtain ⟨h1, h2, h3, h4, h5⟩ := ih (discoverStep f lastId st v) hall'
    exact ⟨h1.trans hdb, h2.trans hsv, h3.trans hbt, h4.trans hpr, h5.trans hck⟩

/-- When the stored watermark never occurs in the enumeration, every item is
skipped while searching for it and the loop state is left untouched. -/
theorem discoverLoop_never_found (f : Filters) (w : String)
    (enum : List VideoDesc) (hw : ∀ v ∈ enum, v.videoId ≠ w) :
    ∀ st : DiscoverState, st.found_last_video = false →
      discoverLoop f (some w) enum st = st := by
  induction enum with
  | nil => intro st _; rfl
  | cons v rest ih =>
    intro st hf
    have hv : v.videoId ≠ w := hw v (by simp)
    have hstep : discoverStep f (some w) st v = st := by
      unfold discoverStep
      rw [if_pos (by rw [hf]; simp)]
      rw [if_neg (by simp [hv])]
    show discoverLoop f (some w) rest (discoverStep f (some w) st v) = st
    rw [hstep]
    exact ih (fun u hu => hw u (by simp [hu])) st hf

/-- Claim C3 (watermark correctness): with stored watermark `C` and remote
enumeration `[A, B, C, D, E]`, discovery saves exactly `D` and `E` (the
ledger is extended by just those two rows, `A`–`C` unchanged), reports 2 new
items and moves the cursor to `E` with total 5; `A` and `B` still appearing
in the enumeration before the watermark are skipped, not re-saved. -/
theorem C3_watermark_correctness :
    discover_all_videos {} [⟨"A", "", ""⟩, ⟨"B", "", ""⟩, ⟨"C", "", ""⟩,
        ⟨"D", "", ""⟩, ⟨"E", "", ""⟩]
      [mkDiscoveredRecord ⟨"A", "", ""⟩ 0, mkDiscoveredRecord ⟨"B", "", ""⟩ 1,
        mkDiscoveredRecord ⟨"C", "", ""⟩ 2]
      ⟨some "C", 3⟩ 3 =
    { net := 2
      db := [mkDiscoveredRecord ⟨"A", "", ""⟩ 0,
        mkDiscoveredRecord ⟨"B", "", ""⟩ 1, mkDiscoveredRecord ⟨"C", "", ""⟩ 2,
        mkDiscoveredRecord ⟨"D", "", ""⟩ 3, mkDiscoveredRecord ⟨"E", "", ""⟩ 4]
      progress := ⟨some "E", 5⟩
      clock := 5 } := by
  decide

/-- Claim C5 (idempotent resume): if a second discovery run over the same
enumeration finds every enumerated item already recorded by the first run,
it saves zero new items and leaves the cursor record (and the ledger)
exactly as the first run left them. -/
theorem C5_idempotent_resume (f : Filters) (enum : List VideoDesc) (db0 : DB)
    (p0 : ProgressRec) (c0 c1 : Nat) (db1 : DB) (p1 : ProgressRec)
    (_h1 : (discover_all_videos f enum db0 p0 c0).db = db1)
    (_h2 : (discover_all_videos f enum db0 p0 c0).progress = p1)
    (hall : ∀ v ∈ enum, is_video_exists db1 v.videoId = true) :
    (discover_all_videos f enum db1 p1 c1).net = 0 ∧
    (discover_all_videos f enum db1 p1 c1).progress = p1 ∧
    (discover_all_videos f enum db1 p1 c1).db = db1 := by
  clear _h1 _h2
  have key := discoverLoop_no_new f p1.last_video_id enum
    { db := db1, processed_count := 0, skipped_count := 0
      saved_count := p1.total_scraped, batch_videos := []
      found_last_video := strOptFalsy p1.last_video_id
      progress := p1, clock := c1 }
    (fun v hv => hall v hv)
  obtain ⟨hdb, hsv, hbt, hpr, _⟩ := key
  unfold discover_all_videos
  dsimp only
  rw [hbt]
  dsimp only [List.getLast?]
  refine ⟨?_, ?_, ?_⟩
  · rw [hsv]; dsimp only; omega
  · rw [hpr]
  · rw [hdb]

/-- Claim C8 (termination): discovery is a total function of the finite
enumeration; when the enumeration is empty, or the stored watermark item id
never occurs in it (and is a genuine id, i.e. non-empty), the run exhausts
the enumeration reporting zero new items, leaving ledger and cursor
untouched. -/
theorem C8_termination (f : Filters) (enum : List VideoDesc) (db : DB)
    (p : ProgressRec) (c : Nat)
    (h : enum = [] ∨ ∃ w, p.last_video_id = some w ∧ w ≠ "" ∧
      ∀ v ∈ enum, v.videoId ≠ w) :
    (discover_all_videos f enum db p c).net = 0 ∧
    (discover_all_videos f enum db p c).db = db ∧
    (discover_all_videos f enum db p c).progress = p := by
  rcases h with h | ⟨w, hw, hne, hv⟩
  · subst h
    unfold discover_all_videos discoverLoop
    dsimp only [List.getLast?]
    exact ⟨by omega, rfl, rfl⟩
  · have hfound : strOptFalsy p.last_video_id = false := by
      rw [hw]; simp [strOptFalsy, hne]
    unfold discover_all_videos
    dsimp only
    rw [hw]
    rw [discoverLoop_never_found f w enum hv _ (by dsimp only; rw [← hw, hfound])]
    dsimp only [List.getLast?]
    exact ⟨by omega, rfl, rfl⟩

/-- Witness for C5 at a concrete input: first run records item `A`; the
repeat run finds nothing new and keeps cursor `(A, 1)`. -/
theorem C5_witness :
    (discover_all_videos {} [⟨"A", "", ""⟩] [mkDiscoveredRecord ⟨"A", "", ""⟩ 0]
        ⟨some "A", 1⟩ 1).net = 0 ∧
    (discover_all_videos {} [⟨"A", "", ""⟩] [mkDiscoveredRecord ⟨"A", "", ""⟩ 0]
        ⟨some "A", 1⟩ 1).progress = ⟨some "A", 1⟩ ∧
    (discover_all_videos {} [⟨"A", "", ""⟩] [mkDiscoveredRecord ⟨"A", "", ""⟩ 0]
        ⟨some "A", 1⟩ 1).db = [mkDiscoveredRecord ⟨"A", "", ""⟩ 0] :=
  C5_idempotent_resume {} [⟨"A", "", ""⟩] [] ⟨none, 0⟩ 0 1
    [mkDiscoveredRecord ⟨"A", "", ""⟩ 0] ⟨some "A", 1⟩
    (by decide) (by decide) (by decide)

/-- Witness for C8 at a concrete input: watermark `W` deleted upstream. -/
theorem C8_witness :
    (discover_all_videos {} [⟨"A", "", ""⟩] [] ⟨some "W", 7⟩ 0).net = 0 ∧
    (discover_all_videos {} [⟨"A", "", ""⟩] [] ⟨some "W", 7⟩ 0).db = [] ∧
    (discover_all_videos {} [⟨"A", "", ""⟩] [] ⟨some "W", 7⟩ 0).progress =
      ⟨some "W", 7⟩ :=
  C8_termination {} [⟨"A", "", ""⟩] [] ⟨some "W", 7⟩ 0
    (Or.inr ⟨"W", rfl, by decide, by decide⟩)

/-! ## Acquisition selection (claim C7) -/

/-- The C7 counterexample row: an uninitialized (`NULL`) processing
status. -/
def c7row : VideoRecord := { video_id := "n", processing_status := none }

/-- Counterexample to claim C7 as stated: a ledger item whose processing
status is `NULL` — hence *not* `'completed'` — is nevertheless not selected
by `videos_to_process`, because the SQL comparison `processing_status !=
'completed'` is `NULL` (three-valued logic) for such rows. -/
theorem C7_counterexample :
    c7row.processing_status ≠ some "completed" ∧
    videos_to_process [c7row] = [] := by
  decide

/-- Claim C7 as amended: the acquisition phase selects exactly the ledger
items whose processing status is non-`NULL` and differs from `completed`
(`NULL`-status rows are excluded by SQL three-valued logic), and processes
them ordered by first-seen (`scraped_at`) time. -/
theorem C7_amended_selection (db : DB) :
    (videos_to_process db).Perm (db.filter notCompletedRow) ∧
    (videos_to_process db).Sorted byScrapedAt ∧
    ∀ r : VideoRecord, r ∈ videos_to_process db ↔
      (r ∈ db ∧ r.processing_status ≠ none ∧
        r.processing_status ≠ some "completed") := by
  refine ⟨List.perm_insertionSort byScrapedAt _,
    List.sorted_insertionSort byScrapedAt _, ?_⟩
  intro r
  unfold videos_to_process
  rw [List.mem_insertionSort, List.mem_filter]
  constructor
  · rintro ⟨hmem, hrow⟩
    refine ⟨hmem, ?_, ?_⟩ <;>
      · unfold notCompletedRow at hrow
        cases hs : r.processing_status with
        | none => rw [hs] at hrow; cases hrow
        | some s =>
          rw [hs] at hrow
          simp at hrow
          simp [hs, hrow]
  · rintro ⟨hmem, hn, hc⟩
    refine ⟨hmem, ?_⟩
    unfold notCompletedRow
    cases hs : r.processing_status with
    | none => exact absurd hs hn
    | some s =>
      rw [hs] at hc
      simp
      intro he
      exact hc (by rw [he])

/-! ## Duration parsing (claim C9) -/

theorem digit_not_ws (c : Char) (h : c.isDigit = true) :
    c.isWhitespace = false := by
  by_contra hc
  rw [Bool.not_eq_false] at hc
  simp [Char.isWhitespace] at hc
  rcases hc with ((hc | hc) | hc) | hc <;> (subst hc; revert h; decide)

theorem digit_ne (c d : Char) (h : c.isDigit = true) (hd : d.isDigit = false) :
    c ≠ d := fun he => by subst he; rw [h] at hd; cases hd

theorem dropWhile_all_false {α : Type} (p : α → Bool) (l : List α)
    (h : ∀ c ∈ l, p c = false) : l.dropWhile p = l := by
  induction l with
  | nil => rfl
  | cons c cs ih =>
    rw [List.dropWhile_cons, h c (by simp), if_neg (by simp)]

theorem pyStripList_id (l : List Char)
    (h : ∀ c ∈ l, c.isWhitespace = false) : pyStripList l = l := by
  unfold pyStripList
  rw [dropWhile_all_false _ _ h,
    dropWhile_all_false _ _ (fun c hc => h c (List.mem_reverse.mp hc)),
    List.reverse_reverse]

theorem splitOnColon_no_colon (l : List Char) (h : ∀ c ∈ l, c ≠ ':') :
    splitOnColon l = [l] := by
  induction l with
  | nil => rfl
  | cons c cs ih =>
    have hc : ¬ c = ':' := h c (by simp)
    rw [splitOnColon, if_neg hc, ih (fun d hd => h d (by simp [hd]))]

theorem splitOnColon_append (l r : List Char) (h : ∀ c ∈ l, c ≠ ':') :
    splitOnColon (l ++ ':' :: r) = l :: splitOnColon r := by
  induction l with
  | nil => rw [List.nil_append, splitOnColon, if_pos rfl]
  | cons c cs ih =>
    have hc : ¬ c = ':' := h c (by simp)
    rw [List.cons_append, splitOnColon, if_neg hc,
      ih (fun d hd => h d (by simp [hd]))]

theorem pyInt?_digits (l : List Char) (hne : l ≠ [])
    (hd : ∀ c ∈ l, c.isDigit = true) :
    pyInt? (String.mk l) = some ((natOfDigits l : Int)) := by
  have hstrip : pyStripList (String.mk l).toList = l :=
    pyStripList_id l (fun c hc => digit_not_ws c (hd c hc))
  have hval : digitsToNat? l = some (natOfDigits l) := by
    unfold digitsToNat?
    rw [if_pos ⟨hne, by rw [List.all_eq_true]; exact hd⟩]
  unfold pyInt?
  split
  · rename_i cs heq
    rw [hstrip] at heq
    cases l with
    | nil => exact absurd rfl hne
    | cons c t =>
      cases heq
      exact absurd (hd '-' (by simp)) (by decide)
  · rename_i cs heq
    rw [hstrip] at heq
    cases l with
    | nil => exact absurd rfl hne
    | cons c t =>
      cases heq
      exact absurd (hd '+' (by simp)) (by decide)
  · rename_i cs _ _
    rw [hstrip, hval]
    rfl

theorem mk_ne_empty (l : List Char) (h : l ≠ []) : String.mk l ≠ "" := by
  intro he
  rw [show ("" : String) = String.mk [] from rfl] at he
  exact h (by injection he)

/-- Reduces the three-part case of the parser. -/
theorem parse_hms (l1 l2 l3 : List Char) (h1 : l1 ≠ []) (h2 : l2 ≠ [])
    (h3 : l3 ≠ []) (hd1 : ∀ c ∈ l1, c.isDigit = true)
    (hd2 : ∀ c ∈ l2, c.isDigit = true) (hd3 : ∀ c ∈ l3, c.isDigit = true) :
    parse_duration_to_minutes (String.mk (l1 ++ ':' :: (l2 ++ ':' :: l3))) =
      some ((natOfDigits l1 : Int) * 60 + (natOfDigits l2 : Int)) := by
  have hL : (l1 ++ ':' :: (l2 ++ ':' :: l3)) ≠ [] :=
    List.append_ne_nil_of_right_ne_nil l1 (by simp)
  have hnc1 : ∀ c ∈ l1, c ≠ ':' := fun c hc => digit_ne c ':' (hd1 c hc) (by decide)
  have hnc2 : ∀ c ∈ l2, c ≠ ':' := fun c hc => digit_ne c ':' (hd2 c hc) (by decide)
  have hnc3 : ∀ c ∈ l3, c ≠ ':' := fun c hc => digit_ne c ':' (hd3 c hc) (by decide)
  have hws : ∀ c ∈ (l1 ++ ':' :: (l2 ++ ':' :: l3)), c.isWhitespace = false := by
    intro c hc
    simp only [List.mem_append, List.mem_cons] at hc
    rcases hc with hc | hc | hc | hc | hc
    · exact digit_not_ws c (hd1 c hc)
    · subst hc; decide
    · exact digit_not_ws c (hd2 c hc)
    · subst hc; decide
    · exact digit_not_ws c (hd3 c hc)
  unfold parse_duration_to_minutes
  rw [if_neg (mk_ne_empty _ hL)]
  have htl : (String.mk (l1 ++ ':' :: (l2 ++ ':' :: l3))).toList =
    (l1 ++ ':' :: (l2 ++ ':' :: l3)) := rfl
  rw [htl, pyStripList_id _ hws, splitOnColon_append _ _ hnc1,
    splitOnColon_append _ _ hnc2, splitOnColon_no_colon _ hnc3]
  rw [show ∀ a b c : List Char, a :: b :: [c] = [a, b, c] from fun _ _ _ => rfl]
  dsimp only
  rw [pyInt?_digits l1 h1 hd1, pyInt?_digits l2 h2 hd2, pyInt?_digits l3 h3 hd3]
  rfl

/-- Reduces the two-part case of the parser. -/
theorem parse_ms (l1 l2 : List Char) (h1 : l1 ≠ []) (h2 : l2 ≠ [])
    (hd1 : ∀ c ∈ l1, c.isDigit = true) (hd2 : ∀ c ∈ l2, c.isDigit = true) :
    parse_duration_to_minutes (String.mk (l1 ++ ':' :: l2)) =
      some ((natOfDigits l1 : Int)) := by
  have hL : (l1 ++ ':' :: l2) ≠ [] :=
    List.append_ne_nil_of_right_ne_nil l1 (by simp)
  have hnc1 : ∀ c ∈ l1, c ≠ ':' := fun c hc => digit_ne c ':' (hd1 c hc) (by decide)
  have hnc2 : ∀ c ∈ l2, c ≠ ':' := fun c hc => digit_ne c ':' (hd2 c hc) (by decide)
  have hws : ∀ c ∈ (l1 ++ ':' :: l2), c.isWhitespace = false := by
    intro c hc
    simp only [List.mem_append, List.mem_cons] at hc
    rcases hc with hc | hc | hc
    · exact digit_not_ws c (hd1 c hc)
    · subst hc; decide
    · exact digit_not_ws c (hd2 c hc)
  unfold parse_duration_to_minutes
  rw [if_neg (mk_ne_empty _ hL)]
  have htl : (String.mk (l1 ++ ':' :: l2)).toList = (l1 ++ ':' :: l2) := rfl
  rw [htl, pyStripList_id _ hws, splitOnColon_append _ _ hnc1,
    splitOnColon_no_colon _ hnc2]
  dsimp only
  rw [pyInt?_digits l1 h1 hd1, pyInt?_digits l2 h2 hd2]
  rfl

/-- Reduces the bare-number case of the parser. -/
theorem parse_bare (l : List Char) (h : l ≠ [])
    (hd : ∀ c ∈ l, c.isDigit = true) :
    parse_duration_to_minutes (String.mk l) =
      some (if 100 < natOfDigits l then ((natOfDigits l / 60 : Nat) : Int)
        else (natOfDigits l : Int)) := by
  have hnc : ∀ c ∈ l, c ≠ ':' := fun c hc => digit_ne c ':' (hd c hc) (by decide)
  have hws : ∀ c ∈ l, c.isWhitespace = false :=
    fun c hc => digit_not_ws c (hd c hc)
  unfold parse_duration_to_minutes
  rw [if_neg (mk_ne_empty _ h)]
  have htl : (String.mk l).toList = l := rfl
  rw [htl, pyStripList_id _ hws, splitOnColon_no_colon _ hnc]
  dsimp only
  rw [pyInt?_digits l h hd]
  rw [show (do
      let value ← some ((natOfDigits l : Int))
      pure (if value > 100 then value.fdiv 60 else value) : Option Int) =
    some (if (natOfDigits l : Int) > 100
      then Int.fdiv (natOfDigits l : Int) 60 else (natOfDigits l : Int))
    from rfl]
  by_cases hgt : 100 < natOfDigits l
  · rw [if_pos hgt, if_pos (by exact_mod_cast hgt)]
    congr 1
    rw [Int.fdiv_eq_tdiv (by positivity) (by norm_num)]
    exact_mod_cast (Int.ofNat_tdiv (natOfDigits l) 60).symm
  · rw [if_neg hgt, if_neg (by exact_mod_cast hgt)]

/-- An unparsable duration is skipped under strict filtering and allowed
through under lenient filtering (the default), whenever a duration window
is in force. -/
theorem spv_strict_lenient (t lt : String) (minD maxD : Option Int)
    (hsome : minD.isSome ∨ maxD.isSome)
    (hp : parse_duration_to_minutes lt = none) :
    (should_process_video none minD maxD true t lt).1 = false ∧
    (should_process_video none minD maxD false t lt).1 = true := by
  constructor <;>
    · unfold should_process_video should_process_video.should_process_duration
      rw [if_pos hsome, hp]
      rfl

/-- Claim C9 (duration parsing): the concrete examples `"1:23:45" = 83`,
`"45:30" = 45`, `"30" = 30`, `"9000" = 150`; in general a well-formed
`H:M:S` parses to `H*60+M`, `M:S` to `M`, and a bare number over 100 is
treated as seconds (floor-divided by 60) and otherwise as minutes;
unparsable text yields no value, upon which `_should_process_video` skips
the item in strict mode and lets it through in lenient mode. -/
theorem C9_duration_parsing :
    parse_duration_to_minutes "1:23:45" = some 83 ∧
    parse_duration_to_minutes "45:30" = some 45 ∧
    parse_duration_to_minutes "30" = some 30 ∧
    parse_duration_to_minutes "9000" = some 150 ∧
    (∀ l1 l2 l3 : List Char, l1 ≠ [] → l2 ≠ [] → l3 ≠ [] →
      (∀ c ∈ l1, c.isDigit = true) → (∀ c ∈ l2, c.isDigit = true) →
      (∀ c ∈ l3, c.isDigit = true) →
      parse_duration_to_minutes (String.mk (l1 ++ ':' :: (l2 ++ ':' :: l3))) =
        some ((natOfDigits l1 : Int) * 60 + (natOfDigits l2 : Int))) ∧
    (∀ l1 l2 : List Char, l1 ≠ [] → l2 ≠ [] →
      (∀ c ∈ l1, c.isDigit = true) → (∀ c ∈ l2, c.isDigit = true) →
      parse_duration_to_minutes (String.mk (l1 ++ ':' :: l2)) =
        some ((natOfDigits l1 : Int))) ∧
    (∀ l : List Char, l ≠ [] → (∀ c ∈ l, c.isDigit = true) →
      parse_duration_to_minutes (String.mk l) =
        some (if 100 < natOfDigits l then ((natOfDigits l / 60 : Nat) : Int)
          else (natOfDigits l : Int))) ∧
    parse_duration_to_minutes "" = none ∧
    parse_duration_to_minutes "abc" = none ∧
    parse_duration_to_minutes "1:2:3:4" = none ∧
    (∀ (t lt : String) (minD maxD : Option Int),
      (minD.isSome ∨ maxD.isSome) → parse_duration_to_minutes lt = none →
      (should_process_video none minD maxD true t lt).1 = false ∧
      (should_process_video none minD maxD false t lt).1 = true) :=
  ⟨by decide, by decide, by decide, by decide, parse_hms, parse_ms, parse_bare,
    by decide, by decide, by decide, spv_strict_lenient⟩

/-- Witness for C9 at concrete inputs: the general laws applied to the
spec's own examples, and the strict/lenient behavior on `"abc"`. -/
theorem C9_witness :
    parse_duration_to_minutes
      (String.mk (['1'] ++ ':' :: (['2', '3'] ++ ':' :: ['4', '5']))) =
        some 83 ∧
    parse_duration_to_minutes (String.mk (['4', '5'] ++ ':' :: ['3', '0'])) =
      some 45 ∧
    parse_duration_to_minutes (String.mk ['9', '0', '0', '0']) = some 150 ∧
    (should_process_video none (some 5) none true "t" "abc").1 = false ∧
    (should_process_video none (some 5) none false "t" "abc").1 = true := by
  refine ⟨?_, ?_, ?_, ?_, ?_⟩
  · exact (C9_duration_parsing.2.2.2.2.1 ['1'] ['2', '3'] ['4', '5']
      (by decide) (by decide) (by decide) (by decide) (by decide)
      (by decide)).trans (by decide)
  · exact (C9_duration_parsing.2.2.2.2.2.1 ['4', '5'] ['3', '0']
      (by decide) (by decide) (by decide) (by decide)).trans (by decide)
  · exact (C9_duration_parsing.2.2.2.2.2.2.1 ['9', '0', '0', '0']
      (by decide) (by decide)).trans (by decide)
  · exact (C9_duration_parsing.2.2.2.2.2.2.2.2.2.2 "t" "abc" (some 5) none
      (by decide) (by decide)).1
  · exact (C9_duration_parsing.2.2.2.2.2.2.2.2.2.2 "t" "abc" (some 5) none
      (by decide) (by decide)).2

/-! ## Undersized-file rejection (claim C6) -/

/-- Claim C6 (undersized-file rejection).  First conjunct: when an attempt
of `download_media` fetches a file (for its video, into an empty media
directory) whose size does not exceed the 1 MB threshold, the file is
unlinked, the run never reports success — it ends with status `corrupted`
— and the media directory ends empty.  Second conjunct: the completion
evaluator never counts sub-threshold files as satisfying media: whenever
every on-disk file of the item is at most 1 MB, `needs_media` is raised and
the item is not fully completed. -/
theorem C6_undersized_rejection :
    (∀ (v : String) (ss : List ((String × String × Bool) × Nat))
      (f : MediaFile), f.vid = v → f.size ≤ 1024 * 1024 →
      download_media true ⟨ss, []⟩
          [.ran 0 "" [f], .ran 1 "x" [], .ran 1 "x" []] [] v =
        ((none, "corrupted", f.size), ⟨ss, []⟩)) ∧
    (∀ (db : DB) (fs : FS) (vid : String) (ds : Bool) (langs : List String),
      (∀ g ∈ fs.media, g.vid = vid → g.size ≤ 1024 * 1024) →
      (get_video_completion_status db fs vid ds langs true).1.needs_media =
        true ∧
      (get_video_completion_status db fs vid ds langs
        true).1.is_fully_completed = false) := by
  constructor
  · intro v ss f hv hsz
    have hng : ¬ (1024 * 1024 < f.size) := by omega
    unfold download_media
    rw [if_neg (by simp)]
    unfold download_media_loop
    simp only [globMedia, List.filter_nil, List.getLast?, purgeIncomplete,
      largestFile, nextMediaEv, List.filter_cons, hv, beq_self_eq_true,
      if_true, List.nil_append, List.append_nil, mediaUnlink]
    simp only [List.foldl_nil]
    rw [if_neg hng]
    simp only [List.erase_cons_head]
    simp +decide [download_media_loop, globMedia, nextMediaEv, largestFile,
      purgeIncomplete, List.filter_nil, List.getLast?]
  · intro db fs vid ds langs h
    have hany : (globMedia fs vid).any isCompleteFile = false := by
      rw [List.any_eq_false]
      intro g hg
      have hm := List.mem_filter.mp hg
      have hvid : g.vid = vid := by simpa using hm.2
      have hsz := h g hm.1 hvid
      simp [isCompleteFile]
      intro _
      omega
    unfold get_video_completion_status
    cases hget : getVideo db vid with
    | none => exact ⟨rfl, rfl⟩
    | some r =>
      dsimp only
      rw [if_pos rfl, hany]
      rw [if_pos (by simp)]
      simp

/-- Witness for C6: a half-megabyte download (the spec's example size) is
deleted and the run reports `corrupted`, and the evaluator still demands
media for an item whose only on-disk file is that size. -/
theorem C6_witness :
    download_media true ⟨[], []⟩
        [.ran 0 "" [⟨"w", "mp3", ".mp3", 524288⟩], .ran 1 "x" [],
          .ran 1 "x" []] [] "w" =
      ((none, "corrupted", 524288), ⟨[], []⟩) ∧
    (get_video_completion_status []
        ⟨[], [⟨"w", "mp3", ".mp3", 524288⟩]⟩ "w" false [] true).1.needs_media =
      true ∧
    (get_video_completion_status []
        ⟨[], [⟨"w", "mp3", ".mp3", 524288⟩]⟩ "w" false []
        true).1.is_fully_completed = false :=
  ⟨C6_undersized_rejection.1 "w" [] ⟨"w", "mp3", ".mp3", 524288⟩ rfl
      (by decide),
    C6_undersized_rejection.2 [] ⟨[], [⟨"w", "mp3", ".mp3", 524288⟩]⟩ "w"
      false [] (by decide)⟩

/-! ## Binary per-language subtitle outcomes (claim C10) -/

theorem subLangStep_results_ne (envOf : String → List SubEv) (vid : String)
    (acc : Option String × Option String × String ×
      List (String × String) × FS) (lang l : String) (h : l ≠ lang) :
    dictGet (subLangStep envOf vid acc lang).2.2.2.1 l =
      dictGet acc.2.2.2.1 l := by
  unfold subLangStep
  exact dictGet_dictInsert_ne _ _ _ _ h

theorem subLangStep_results_self (envOf : String → List SubEv) (vid : String)
    (acc : Option String × Option String × String ×
      List (String × String) × FS) (lang : String) :
    dictGet (subLangStep envOf vid acc lang).2.2.2.1 lang = some "completed" ∨
    dictGet (subLangStep envOf vid acc lang).2.2.2.1 lang =
      some "not_available" := by
  unfold subLangStep
  rw [dictGet_dictInsert_self]
  split
  · exact Or.inl rfl
  · exact Or.inr rfl

theorem subFold_results_not_mem (envOf : String → List SubEv) (vid : String)
    (languages : List String) (l : String) (hl : l ∉ languages) :
    ∀ acc, dictGet (languages.foldl (subLangStep envOf vid)
        acc).2.2.2.1 l = dictGet acc.2.2.2.1 l := by
  induction languages with
  | nil => intro acc; rfl
  | cons lang rest ih =>
    intro acc
    have h1 : l ≠ lang := fun he => hl (by simp [he])
    rw [List.foldl_cons, ih (fun he => hl (by simp [he]))]
    exact subLangStep_results_ne envOf vid acc lang l h1

theorem subFold_results_mem (envOf : String → List SubEv) (vid : String)
    (languages : List String) (l : String) (hl : l ∈ languages) :
    ∀ acc, dictGet (languages.foldl (subLangStep envOf vid)
        acc).2.2.2.1 l = some "completed" ∨
      dictGet (languages.foldl (subLangStep envOf vid)
        acc).2.2.2.1 l = some "not_available" := by
  induction languages with
  | nil => cases hl
  | cons lang rest ih =>
    intro acc
    rw [List.foldl_cons]
    by_cases hr : l ∈ rest
    · exact ih hr _
    · have h1 : l = lang := by
        rcases List.mem_cons.mp hl with h | h
        · exact h
        · exact absurd h hr
      subst h1
      rw [subFold_results_not_mem envOf vid rest l hr]
      exact subLangStep_results_self envOf vid acc l

/-- Claim C10 (binary language outcomes): the per-language result map of
`download_subtitles` assigns each requested language exactly one of
`'completed'` or `'not_available'` — there is no third, transient-failure
outcome — and carries no entry for languages that were not requested. -/
theorem C10_binary_language_outcomes (fs : FS) (envOf : String → List SubEv)
    (vid : String) (languages : List String) :
    (∀ lang ∈ languages,
      dictGet (download_subtitles fs envOf vid languages).1.2.2.2 lang =
          some "completed" ∨
      dictGet (download_subtitles fs envOf vid languages).1.2.2.2 lang =
          some "not_available") ∧
    (∀ lang, lang ∉ languages →
      dictGet (download_subtitles fs envOf vid languages).1.2.2.2 lang =
        none) := by
  constructor
  · intro lang hmem
    exact subFold_results_mem envOf vid languages lang hmem _
  · intro lang hmem
    unfold download_subtitles
    rw [subFold_results_not_mem envOf vid languages lang hmem]
    rfl

/-- Witness for C10: a concrete call where `fa` succeeds on the first
attempt and `en` exhausts its attempts. -/
theorem C10_witness :
    (dictGet (download_subtitles ⟨[], []⟩
        (fun l => if l = "fa" then [.ran 0 "" (some 10)] else [])
        "w" ["fa", "en"]).1.2.2.2 "fa" = some "completed" ∨
      dictGet (download_subtitles ⟨[], []⟩
        (fun l => if l = "fa" then [.ran 0 "" (some 10)] else [])
        "w" ["fa", "en"]).1.2.2.2 "fa" = some "not_available") ∧
    dictGet (download_subtitles ⟨[], []⟩
        (fun l => if l = "fa" then [.ran 0 "" (some 10)] else [])
        "w" ["fa", "en"]).1.2.2.2 "de" = none :=
  ⟨(C10_binary_language_outcomes ⟨[], []⟩
      (fun l => if l = "fa" then [.ran 0 "" (some 10)] else [])
      "w" ["fa", "en"]).1 "fa" (by decide),
    (C10_binary_language_outcomes ⟨[], []⟩
      (fun l => if l = "fa" then [.ran 0 "" (some 10)] else [])
      "w" ["fa", "en"]).2 "de" (by decide)⟩

/-! ## Acquisition-loop locality (towards claim C1) -/

/-- The state left behind by the subtitle-and-media portion of the loop
body, whether it returned or raised. -/
def stepState : Except (String × RunState) (RunState × Bool) → RunState
  | .ok p => p.1
  | .error e => e.2

theorem subtitlePathColumns_video_id (cfg : Config) (mp ap : Option String)
    (ty : String) (r : VideoRecord) :
    (subtitlePathColumns cfg mp ap ty r).video_id = r.video_id := rfl

theorem mediaPathColumns_video_id (cfg : Config) (fp : Option String)
    (ds : String) (sz : Nat) (r : VideoRecord) :
    (mediaPathColumns cfg fp ds sz r).video_id = r.video_id := by
  unfold mediaPathColumns
  split <;> rfl

theorem markLanguageResults_getVideo_ne (vid w : String)
    (results : List (String × String)) (langs : List String) (hw : w ≠ vid) :
    ∀ db, getVideo (markLanguageResults vid results langs db) w =
      getVideo db w := by
  induction langs with
  | nil => intro db; rfl
  | cons l rest ih =>
    intro db
    unfold markLanguageResults at ih ⊢
    rw [List.foldl_cons, ih]
    split <;> exact getVideo_mark_ne _ _ _ _ _ hw

theorem subtitleStep_getVideo_ne (cfg : Config) (env : ItemEnv)
    (vid w : String) (langs : List String) (st : RunState) (b : Bool)
    (hw : w ≠ vid) :
    getVideo (subtitleStep cfg env vid langs st b).1.db w =
      getVideo st.db w := by
  unfold subtitleStep
  split
  · rfl
  · dsimp only
    rw [markLanguageResults_getVideo_ne vid w _ langs hw]
    exact getVideo_updateVideo_ne _ _ _ _
      (subtitlePathColumns_video_id cfg _ _ _) hw

theorem mediaStep_getVideo_ne (cfg : Config) (env : ItemEnv) (vid w : String)
    (st : RunState) (b : Bool) (hw : w ≠ vid) :
    getVideo (stepState (mediaStep cfg env vid st b)).db w =
      getVideo st.db w := by
  unfold mediaStep
  split
  · simp only [stepState]
    exact getVideo_mark_ne _ _ _ _ _ hw
  · split
    · split
      · simp only [stepState]
      · simp only [stepState]
        exact getVideo_mark_ne _ _ _ _ _ hw
    · dsimp only
      split
      all_goals
        simp only [stepState]
        rw [getVideo_mark_ne _ _ _ _ _ hw]
        exact getVideo_updateVideo_ne _ _ _ _
          (mediaPathColumns_video_id cfg _ _ _) hw

theorem processBody_getVideo_ne (cfg : Config) (env : ItemEnv)
    (vid w : String) (cs : CompletionStatus) (st : RunState) (hw : w ≠ vid) :
    getVideo (resState (processBody cfg env vid cs st)).db w =
      getVideo st.db w := by
  unfold processBody
  split
  · rfl
  · dsimp only
    have hstepped : getVideo (if cs.needs_subtitles then
        subtitleStep cfg env vid cs.missing_subtitle_languages st true
        else (st, true)).1.db w = getVideo st.db w := by
      split
      · exact subtitleStep_getVideo_ne cfg env vid w _ st true hw
      · rfl
    have hact : getVideo (stepState (if cs.needs_media then
        mediaStep cfg env vid
          (if cs.needs_subtitles then
            subtitleStep cfg env vid cs.missing_subtitle_languages st true
            else (st, true)).1
          (if cs.needs_subtitles then
            subtitleStep cfg env vid cs.missing_subtitle_languages st true
            else (st, true)).2
        else .ok (if cs.needs_subtitles then
          subtitleStep cfg env vid cs.missing_subtitle_languages st true
          else (st, true)))).db w = getVideo st.db w := by
      split
      · rw [mediaStep_getVideo_ne cfg env vid w _ _ hw]
        exact hstepped
      · exact hstepped
    generalize hq : (if cs.needs_media then
        mediaStep cfg env vid
          (if cs.needs_subtitles then
            subtitleStep cfg env vid cs.missing_subtitle_languages st true
            else (st, true)).1
          (if cs.needs_subtitles then
            subtitleStep cfg env vid cs.missing_subtitle_languages st true
            else (st, true)).2
        else .ok (if cs.needs_subtitles then
          subtitleStep cfg env vid cs.missing_subtitle_languages st true
          else (st, true))) = act at hact ⊢
    cases act with
    | error e =>
      simp only [stepState] at hact
      simpa [resState] using hact
    | ok fin =>
      simp only [stepState] at hact
      dsimp only
      split
      all_goals
        simp only [resState]
        rw [getVideo_uvcs_ne _ _ _ _ _ _ _ _ hw]
        exact hact

theorem processOne_getVideo_ne (cfg : Config) (env : ItemEnv)
    (vid w : String) (st : RunState) (hw : w ≠ vid) :
    getVideo (resState (processOne cfg env vid st)).db w =
      getVideo st.db w := by
  unfold processOne
  dsimp only
  rw [processBody_getVideo_ne cfg env vid w _ _ hw]
  exact gvcs_getVideo_ne st.db st.fs vid _ _ _ w hw

theorem acquireLoop_cons (cfg : Config) (envOf : String → ItemEnv)
    (vid : String) (rest : List String) (st : RunState) :
    acquireLoop cfg envOf (vid :: rest) st =
      match processOne cfg (envOf vid) vid st with
      | .ok st' => acquireLoop cfg envOf rest st'
      | .error (msg, st') =>
        if isCriticalMsg msg = true then st'
        else acquireLoop cfg envOf rest (failItem st' vid) := rfl

theorem processPrefix_cons (cfg : Config) (envOf : String → ItemEnv)
    (vid : String) (rest : List String) (st : RunState) :
    processPrefix cfg envOf (vid :: rest) st =
      match processOne cfg (envOf vid) vid st with
      | .ok st' => processPrefix cfg envOf rest st'
      | .error (msg, st') =>
        if isCriticalMsg msg = true then none
        else processPrefix cfg envOf rest (failItem st' vid) := rfl

/-- A prefix of the item loop that finishes without a critical break
composes with the remainder of the loop. -/
theorem acquireLoop_of_processPrefix (cfg : Config)
    (envOf : String → ItemEnv) (l : List String) :
    ∀ st st' : RunState, processPrefix cfg envOf l st = some st' →
      ∀ rest, acquireLoop cfg envOf (l ++ rest) st =
        acquireLoop cfg envOf rest st' := by
  induction l with
  | nil =>
    intro st st' h rest
    injection h with h
    rw [h]
    rfl
  | cons v t ih =>
    intro st st' h rest
    rw [processPrefix_cons] at h
    rw [List.cons_append, acquireLoop_cons]
    cases hp : processOne cfg (envOf v) v st with
    | ok s1 =>
      rw [hp] at h
      dsimp only at h ⊢
      exact ih s1 st' h rest
    | error e =>
      obtain ⟨msg, s2⟩ := e
      rw [hp] at h
      dsimp only at h ⊢
      by_cases hc : isCriticalMsg msg = true
      · rw [if_pos hc] at h
        cases h
      · rw [if_neg hc] at h ⊢
        exact ih _ st' h rest

/-- C1 failing inputs: item `v1` (first in scrape order) hits the
adversarial-blocking wall — every fetch attempt fails with a bot-detection
signal and all three escalation rungs fail — while the next queued item
`v2` downloads a 2 MB file successfully. -/
def c1r1 : VideoRecord :=
  { video_id := "v1", scraped_at := 1, metadata_completed := true
    processing_status := some "metadata_only" }

def c1r2 : VideoRecord :=
  { video_id := "v2", scraped_at := 2, metadata_completed := true
    processing_status := some "metadata_only" }

def c1cfg : Config :=
  { download_subtitles := false, subtitle_languages := []
    download_media := true }

def c1env : String → ItemEnv := fun vid =>
  if vid = "v1" then
    { mediaEnv := [.ran 1 "Sign in to confirm you are not a bot" [],
        .ran 1 "Sign in to confirm you are not a bot" [],
        .ran 1 "Sign in to confirm you are not a bot" []]
      altEnv := [.ran 1 "x" [], .timeout, .timeout] }
  else
    { mediaEnv := [.ran 0 "" [⟨"v2", "mp3", ".mp3", 2097152⟩]] }

def c1res : RunState :=
  download_all_missing c1cfg c1env [c1r1, c1r2] ⟨[], []⟩

/-- Claim C1 (circuit breaker) — code bug: the fatal
`Exception("Authentication/bot detection error - manual intervention
required")` raised when the escalation ladder is exhausted sits inside the
retry attempt's own `try:` block, so `download_media`'s catch-all
`except Exception` handler swallows it, sets `download_status = 'error'`
and keeps retrying; the exception never reaches `download_all_missing`'s
re-raise and break machinery, which is dead code for this condition.  At
the failing input: `download_media` on the fully blocked item returns
*normally* with status `error` (first conjunct), the item is merely marked
`partial`, and the run continues and fully completes the next queued item
instead of halting (remaining conjuncts) — contradicting the claimed
immediate halt of the whole `acquireAll` call. -/
theorem C1_code_bug :
    download_media true ⟨[], []⟩ (c1env "v1").mediaEnv (c1env "v1").altEnv
        "v1" = ((none, "error", 0), ⟨[], []⟩) ∧
    statusAt c1res.db "v1" = some (some "partial") ∧
    statusAt c1res.db "v2" = some (some "completed") ∧
    c1res.success_count = 1 ∧
    c1res.failed_count = 1 :=
  ⟨rfl, rfl, rfl, rfl, rfl⟩

/-! ## Terminal `not_available` languages (claim C4) -/

theorem subtitlePathColumns_subs (cfg : Config) (mp ap : Option String)
    (ty : String) (r : VideoRecord) :
    (subtitlePathColumns cfg mp ap ty r).subtitles_completed =
      r.subtitles_completed := rfl

theorem mediaPathColumns_subs (cfg : Config) (fp : Option String)
    (ds : String) (sz : Nat) (r : VideoRecord) :
    (mediaPathColumns cfg fp ds sz r).subtitles_completed =
      r.subtitles_completed := by
  unfold mediaPathColumns
  split <;> rfl

theorem markLanguageResults_subEntry (vid lang : String)
    (results : List (String × String)) (langs : List String)
    (hmiss : lang ∉ langs) :
    ∀ db, subEntry (markLanguageResults vid results langs db) vid lang =
      subEntry db vid lang := by
  induction langs with
  | nil => intro db; rfl
  | cons l rest ih =>
    intro db
    have hl : l ≠ lang := fun he => hmiss (by simp [he])
    unfold markLanguageResults at ih ⊢
    rw [List.foldl_cons, ih (fun he => hmiss (by simp [he]))]
    split <;>
      exact subEntry_mark_other _ _ _ _ _
        (fun l' hl' => by injection hl' with h; rw [← h]; exact hl)

theorem subtitleStep_subEntry (cfg : Config) (env : ItemEnv)
    (vid lang : String) (langs : List String) (st : RunState) (b : Bool)
    (hmiss : lang ∉ langs) :
    subEntry (subtitleStep cfg env vid langs st b).1.db vid lang =
      subEntry st.db vid lang := by
  unfold subtitleStep
  split
  · rfl
  · dsimp only
    rw [markLanguageResults_subEntry vid lang _ langs hmiss]
    exact subEntry_updateVideo_pres _ _ _ _
      (subtitlePathColumns_video_id cfg _ _ _)
      (subtitlePathColumns_subs cfg _ _ _)

theorem mediaStep_subEntry (cfg : Config) (env : ItemEnv)
    (vid lang : String) (st : RunState) (b : Bool) :
    subEntry (stepState (mediaStep cfg env vid st b)).db vid lang =
      subEntry st.db vid lang := by
  have hmark : ∀ db bb, subEntry (mark_step_completed db vid .media bb)
      vid lang = subEntry db vid lang :=
    fun db bb => subEntry_mark_other db vid lang bb .media
      (fun l' hl' => by cases hl')
  unfold mediaStep
  split
  · simp only [stepState]
    exact hmark _ _
  · split
    · split
      · simp only [stepState]
      · simp only [stepState]
        exact hmark _ _
    · dsimp only
      split
      all_goals
        simp only [stepState]
        rw [hmark]
        exact subEntry_updateVideo_pres _ _ _ _
          (mediaPathColumns_video_id cfg _ _ _)
          (mediaPathColumns_subs cfg _ _ _)

theorem processBody_subEntry (cfg : Config) (env : ItemEnv)
    (vid lang : String) (cs : CompletionStatus) (st : RunState)
    (hmiss : lang ∉ cs.missing_subtitle_languages) :
    subEntry (resState (processBody cfg env vid cs st)).db vid lang =
      subEntry st.db vid lang := by
  unfold processBody
  split
  · rfl
  · dsimp only
    have hstepped : subEntry (if cs.needs_subtitles then
        subtitleStep cfg env vid cs.missing_subtitle_languages st true
        else (st, true)).1.db vid lang = subEntry st.db vid lang := by
      split
      · exact subtitleStep_subEntry cfg env vid lang _ st true hmiss
      · rfl
    have hact : subEntry (stepState (if cs.needs_media then
        mediaStep cfg env vid
          (if cs.needs_subtitles then
            subtitleStep cfg env vid cs.missing_subtitle_languages st true
            else (st, true)).1
          (if cs.needs_subtitles then
            subtitleStep cfg env vid cs.missing_subtitle_languages st true
            else (st, true)).2
        else .ok (if cs.needs_subtitles then
          subtitleStep cfg env vid cs.missing_subtitle_languages st true
          else (st, true)))).db vid lang = subEntry st.db vid lang := by
      split
      · rw [mediaStep_subEntry cfg env vid lang]
        exact hstepped
      · exact hstepped
    generalize hq : (if cs.needs_media then
        mediaStep cfg env vid
          (if cs.needs_subtitles then
            subtitleStep cfg env vid cs.missing_subtitle_languages st true
            else (st, true)).1
          (if cs.needs_subtitles then
            subtitleStep cfg env vid cs.missing_subtitle_languages st true
            else (st, true)).2
        else .ok (if cs.needs_subtitles then
          subtitleStep cfg env vid cs.missing_subtitle_languages st true
          else (st, true))) = act at hact ⊢
    cases act with
    | error e =>
      simp only [stepState] at hact
      simpa [resState] using hact
    | ok fin =>
      simp only [stepState] at hact
      dsimp only
      split
      all_goals
        simp only [resState]
        rw [subEntry_uvcs_none]
        exact hact

/-- Claim C4 (not-available is terminal): a language whose stored status is
`not_available` is never reported among the missing languages by the
completion evaluator — and since the acquisition body requests from the
fetch collaborator exactly the evaluator's missing languages, it is never
re-requested — and its stored `not_available` status survives the whole
acquisition body (whether it returns or raises), so later runs treat it
the same way, even when no caption file for it exists on disk. -/
theorem C4_not_available_terminal (cfg : Config) (env : ItemEnv)
    (st : RunState) (vid lang : String) (r : VideoRecord)
    (hr : getVideo st.db vid = some r)
    (hna : dictGet r.subtitles_completed lang = some "not_available") :
    lang ∉ (get_video_completion_status st.db st.fs vid
      cfg.download_subtitles cfg.subtitle_languages
      cfg.download_media).1.missing_subtitle_languages ∧
    subEntry (resState (processOne cfg env vid st)).db vid lang =
      some "not_available" := by
  have hmiss := gvcs_missing_na st.db st.fs vid lang cfg.download_subtitles
    cfg.subtitle_languages cfg.download_media r hr hna
  refine ⟨hmiss, ?_⟩
  unfold processOne
  dsimp only
  rw [processBody_subEntry cfg env vid lang _ _ hmiss]
  dsimp only
  rw [gvcs_subEntry_na st.db st.fs vid lang cfg.download_subtitles
    cfg.subtitle_languages cfg.download_media r hr hna]
  unfold subEntry
  rw [hr]
  exact hna

/-- C4 witness row: `en` is stored `not_available`, nothing on disk. -/
def c4row : VideoRecord :=
  { video_id := "y", metadata_completed := true
    subtitles_completed := [("en", "not_available")]
    processing_status := some "partial" }

/-- Witness for C4 at a concrete input. -/
theorem C4_witness :
    "en" ∉ (get_video_completion_status [c4row] ⟨[], []⟩ "y"
      ({} : Config).download_subtitles ({} : Config).subtitle_languages
      ({} : Config).download_media).1.missing_subtitle_languages ∧
    subEntry (resState (processOne {} {} "y"
      { db := [c4row], fs := ⟨[], []⟩ })).db "y" "en" =
      some "not_available" :=
  C4_not_available_terminal {} {} { db := [c4row], fs := ⟨[], []⟩ } "y" "en"
    c4row (by rfl) (by rfl)

end YTScraper
